import Mathlib

/-!
Verification of the keyword-based interview answer evaluator
(`answer_evaluator.py`, class `AdvancedKeywordEvaluator`).

Shallow embedding conventions:
  * transcripts and keywords are `List Char` (`Str`); table data is written as
    `String` literals and converted with `.data`;
  * apostrophes inside data strings are written `*` and mapped to the real
    apostrophe character (code 39) by `litA`, e.g. `litA ("don*t know")`;
  * Python floats are modelled as `ℚ`; `round(x, 1)` is modelled by
    `pyRound1` (round half away from zero upward at the first decimal,
    which agrees with CPython on every value arising in this file);
  * the regular-expression engine used by `_find_pattern_matches` is an
    abstract function parameter (its output is only stored as evidence and
    never used by the scoring computation);
  * Python object mutation in `evaluate_full_interview` is modelled with an
    explicit heap: a list of question records addressed by index, shared
    between the caller's session and the returned session.
All definitions are structurally recursive so that concrete runs can be
evaluated by `decide`.
-/

abbrev Str := List Char

/-- The space character, written via its code so the file avoids quoting it. -/
def spc : Char := Char.ofNat 32

/-- The apostrophe character (code 39). -/
def apos : Char := Char.ofNat 39

/-- Literal helper: `*` in the argument stands for an apostrophe. -/
def litA (s : String) : Str :=
  s.data.map (fun c => if c = '*' then apos else c)

/-- Python `\s` (ASCII part): space, tab, newline, carriage return,
vertical tab, form feed. -/
def isWs (c : Char) : Bool :=
  c = spc || c = Char.ofNat 9 || c = Char.ofNat 10 || c = Char.ofNat 13 ||
    c = Char.ofNat 11 || c = Char.ofNat 12

/-- Python `\w` (ASCII part): letters, digits, underscore. -/
def wordChar (c : Char) : Bool :=
  ('a' ≤ c && c ≤ 'z') || ('A' ≤ c && c ≤ 'Z') || ('0' ≤ c && c ≤ '9') || c = '_'

/-- ASCII lower-casing of one character (Python `str.lower` on the ASCII
texts handled by the evaluator). -/
def toLowerAscii (c : Char) : Char :=
  if 'A' ≤ c && c ≤ 'Z' then Char.ofNat (c.toNat + 32) else c

/-- Python `text.lower()`. -/
def pyLower (t : Str) : Str := t.map toLowerAscii

/-- Python substring test `p in t` (`t` is the haystack). -/
def containsSub (t p : Str) : Bool :=
  p.isPrefixOf t ||
    (match t with
     | [] => false
     | _ :: ts => containsSub ts p)

/-- `isWordOpt o` is true when `o` holds a word character; the virtual
positions before the first and after the last character count as non-word. -/
def isWordOpt : Option Char → Bool
  | none => false
  | some c => wordChar c

/-- A `\b` word boundary sits between two positions exactly when one side is
a word character and the other is not. -/
def atBoundary (a b : Option Char) : Bool := isWordOpt a != isWordOpt b

/-- The regex `\b kw \b` matches at the current position (`prev` is the
character just before the position, `rest` the remaining text). -/
def wbMatchAt (kw : Str) (prev : Option Char) (rest : Str) : Bool :=
  kw.isPrefixOf rest && atBoundary prev kw.head? &&
    atBoundary kw.getLast? (rest.drop kw.length).head?

/-- `re.search(r'\b' + re.escape(kw) + r'\b', text)`: scan every position. -/
def wbSearch (kw : Str) (prev : Option Char) (rest : Str) : Bool :=
  wbMatchAt kw prev rest ||
    (match rest with
     | [] => false
     | c :: cs => wbSearch kw (some c) cs)

/-- `_is_keyword_present(text, keyword)` — substring fast path first, then
the word-boundary regex (the source keeps two identical regex branches,
one for multi-word phrases and one for single words). -/
def is_keyword_present (text keyword : Str) : Bool :=
  if containsSub text keyword then true
  else if keyword.contains spc then wbSearch keyword none text
  else wbSearch keyword none text

/-- One step of leftmost non-overlapping literal replacement
(`re.sub` with a literal pattern): `skip` counts characters still to copy
over from a replacement site. -/
def raGo (p r : Str) (skip : ℕ) : Str → Str
  | [] => []
  | c :: cs =>
    match skip with
    | s + 1 => raGo p r s cs
    | 0 =>
      if p.isPrefixOf (c :: cs) then r ++ raGo p r (p.length - 1) cs
      else c :: raGo p r 0 cs

/-- `re.sub(p, r, t)` for a literal (regex-free) pattern `p`. -/
def replaceAll (p r t : Str) : Str := raGo p r 0 t

/-- `re.sub(r'\s+', ' ', t)`: every maximal whitespace run becomes one space. -/
def collapseWs : Str → Str
  | [] => []
  | c :: cs =>
    if isWs c then
      match cs with
      | [] => [spc]
      | d :: _ => if isWs d then collapseWs cs else spc :: collapseWs cs
    else c :: collapseWs cs

/-- Python `str.lstrip()`. -/
def lstripWs (t : Str) : Str := t.dropWhile isWs

/-- Python `str.rstrip()`. -/
def rstripWs (t : Str) : Str := (t.reverse.dropWhile isWs).reverse

/-- Python `str.strip()`. -/
def stripWs (t : Str) : Str := rstripWs (lstripWs t)

/-- Python `str.split()` (split on whitespace runs, no empty words). -/
def wordsOf : Str → List Str
  | [] => []
  | c :: cs =>
    if isWs c then wordsOf cs
    else
      match cs with
      | [] => [[c]]
      | d :: _ =>
        if isWs d then [c] :: wordsOf cs
        else
          match wordsOf cs with
          | [] => [[c]]
          | w :: ws => (c :: w) :: ws

/-- Join words with single spaces (used only in proofs to characterise
`stripWs ∘ collapseWs`). -/
def intercalateSp : List Str → Str
  | [] => []
  | [w] => w
  | w :: ws => w ++ spc :: intercalateSp ws

/-- The contraction-expansion block of `_clean_text`, in source order. -/
def expandContractions (s : Str) : Str :=
  let s := replaceAll (litA ("won*t")) (("will not").data) s
  let s := replaceAll (litA ("can*t")) (("cannot").data) s
  let s := replaceAll (litA ("n*t")) ((" not").data) s
  let s := replaceAll (litA ("*re")) ((" are").data) s
  let s := replaceAll (litA ("*ve")) ((" have").data) s
  let s := replaceAll (litA ("*ll")) ((" will").data) s
  replaceAll (litA ("*d")) ((" would").data) s

/-- `_clean_text`: lower-case, collapse whitespace, strip, expand the fixed
contraction list. -/
def clean_text (t : Str) : Str :=
  expandContractions (stripWs (collapseWs (pyLower t)))

-- quick sanity examples
example : wordsOf (("a  b ").data) = [("a").data, ("b").data] := by decide
example : clean_text (litA ("I don*t know")) = ("i do not know").data := by decide
example : collapseWs (("a  b").data) = ("a b").data := by decide

/-- String literal helper for data containing apostrophes (`*` stands for
the apostrophe). -/
def strA (s : String) : String := ⟨litA s⟩

/-- `length_expectations` of a rubric entry. -/
structure LengthExpectations where
  min_words : ℕ
  optimal_words : ℕ
  max_words : ℕ

/-- `scoring_weights` of a rubric entry (`structureW` is the `"structure"`
key of the Python dict). -/
structure ScoringWeights where
  essential : ℚ
  bonus : ℚ
  structureW : ℚ

/-- One per-question entry of `question_criteria` (`qtype` is the `"type"`
key of the Python dict). -/
structure Rubric where
  qtype : String
  essential_keywords : List (String × List String)
  bonus_keywords : List (String × List String)
  negative_keywords : List String
  context_patterns : List String
  length_expectations : LengthExpectations
  scoring_weights : ScoringWeights

/-- Question 1: Python experience and projects. -/
def criteria0 : Rubric :=
  { qtype := "python_experience"
    essential_keywords :=
      [("experience", ["python", "programming", "experience", "years", "worked"]),
       ("projects", ["project", "application", "system", "built", "developed"]),
       ("technologies", ["framework", "library", "tool", "technology", "stack"])]
    bonus_keywords :=
      [("specific_frameworks", ["django", "flask", "fastapi", "pyramid", "tornado"]),
       ("libraries", ["pandas", "numpy", "requests", "matplotlib", "scikit-learn"]),
       ("deployment", ["aws", "docker", "kubernetes", "heroku", "azure"]),
       ("version_control", ["git", "github", "version control", "repository"])]
    negative_keywords := ["never used", strA ("don*t know"), "basic only", "just started"]
    context_patterns :=
      [r"(\d+)\s+years?\s+(of\s+)?python",
       r"built\s+(a|an)\s+\w+\s+(application|system)",
       r"used\s+\w+\s+(framework|library)",
       r"deployed\s+(to|on)\s+\w+"]
    length_expectations := { min_words := 30, optimal_words := 80, max_words := 180 }
    scoring_weights := { essential := 0.6, bonus := 0.3, structureW := 0.1 } }

/-- Question 2: Lists vs Tuples. -/
def criteria1 : Rubric :=
  { qtype := "python_fundamentals"
    essential_keywords :=
      [("data_types", ["list", "tuple", "difference", "mutable", "immutable"]),
       ("characteristics", ["ordered", "indexed", "changeable", "modify", "elements"]),
       ("use_cases", ["use", "when", "choose", "scenario", "situation"])]
    bonus_keywords :=
      [("technical_details", ["memory", "performance", "iteration", "slicing", "indexing"]),
       ("examples", ["example", "instance", "case", "situation", "scenario"]),
       ("methods", ["append", "extend", "remove", "pop", "sort"])]
    negative_keywords := ["same thing", "no difference", strA ("don*t know")]
    context_patterns :=
      [r"list.*mutable.*tuple.*immutable",
       r"tuple.*immutable.*list.*mutable",
       r"use\s+list\s+when",
       r"use\s+tuple\s+when"]
    length_expectations := { min_words := 25, optimal_words := 60, max_words := 120 }
    scoring_weights := { essential := 0.7, bonus := 0.2, structureW := 0.1 } }

/-- Question 3: Exception handling. -/
def criteria2 : Rubric :=
  { qtype := "python_error_handling"
    essential_keywords :=
      [("exception_basics", ["exception", "error", "try", "except", "handle"]),
       ("structure", ["try block", "except block", "finally", "else", "raise"]),
       ("examples", ["example", "code", "demonstrate", "show", "implement"])]
    bonus_keywords :=
      [("specific_exceptions", ["valueerror", "typeerror", "indexerror", "keyerror", "filenotfounderror"]),
       ("best_practices", ["specific", "generic", "logging", "graceful", "user friendly"]),
       ("advanced", ["custom exception", "exception chaining", "traceback", "debugging"])]
    negative_keywords := ["avoid errors", strA ("don*t handle"), "ignore exceptions"]
    context_patterns :=
      [r"try:\s*.*\s*except",
       r"except\s+\w+Error",
       r"finally\s+block",
       r"raise\s+\w+"]
    length_expectations := { min_words := 30, optimal_words := 70, max_words := 150 }
    scoring_weights := { essential := 0.6, bonus := 0.3, structureW := 0.1 } }

/-- Question 4: SQL JOINs. -/
def criteria3 : Rubric :=
  { qtype := "sql_joins"
    essential_keywords :=
      [("join_types", ["inner join", "left join", "right join", "outer join", "full outer"]),
       ("concepts", ["table", "relationship", "match", "record", "row"]),
       ("explanation", ["difference", "when", "use", "returns", "result"])]
    bonus_keywords :=
      [("technical_details", ["foreign key", "primary key", "null", "cartesian product"]),
       ("examples", ["example", "scenario", "case", "customers", "orders"]),
       ("performance", ["performance", "index", "optimization", "efficiency"])]
    negative_keywords := ["all the same", strA ("don*t know difference"), "confusing"]
    context_patterns :=
      [r"inner\s+join.*returns.*matching",
       r"left\s+join.*returns.*all.*left",
       r"right\s+join.*returns.*all.*right",
       r"outer\s+join.*returns.*all"]
    length_expectations := { min_words := 35, optimal_words := 80, max_words := 160 }
    scoring_weights := { essential := 0.7, bonus := 0.2, structureW := 0.1 } }

/-- Question 5: SQL query optimization. -/
def criteria4 : Rubric :=
  { qtype := "sql_performance"
    essential_keywords :=
      [("optimization_techniques", ["index", "query plan", "optimize", "performance", "slow"]),
       ("analysis", ["explain", "analyze", "execution", "bottleneck", "identify"]),
       ("solutions", ["improve", "faster", "efficient", "reduce", "time"])]
    bonus_keywords :=
      [("specific_techniques", ["covering index", "composite index", "statistics", "partitioning"]),
       ("tools", ["profiler", "execution plan", "query analyzer", "monitoring"]),
       ("advanced", ["materialized view", "denormalization", "caching", "sharding"])]
    negative_keywords := [strA ("can*t optimize"), "always fast", strA ("don*t check performance")]
    context_patterns :=
      [r"add.*index.*on",
       r"explain.*plan",
       r"rewrite.*query",
       r"avoid.*select.*\*"]
    length_expectations := { min_words := 30, optimal_words := 70, max_words := 140 }
    scoring_weights := { essential := 0.6, bonus := 0.3, structureW := 0.1 } }

/-- Question 6: Python decorators. -/
def criteria5 : Rubric :=
  { qtype := "python_advanced"
    essential_keywords :=
      [("decorator_basics", ["decorator", "function", "wrapper", "modify", "behavior"]),
       ("syntax", ["@", "symbol", "syntax", "above", "before"]),
       ("purpose", ["use", "when", "why", "purpose", "benefit"])]
    bonus_keywords :=
      [("examples", ["@property", "@staticmethod", "@classmethod", "@wraps"]),
       ("concepts", ["closure", "first class", "higher order", "functional"]),
       ("use_cases", ["logging", "timing", "authentication", "validation", "caching"])]
    negative_keywords := ["too complex", "never use", strA ("don*t understand")]
    context_patterns :=
      [r"@\w+",
       r"def\s+\w+\(func\)",
       r"wrapper.*function",
       r"return.*wrapper"]
    length_expectations := { min_words := 25, optimal_words := 65, max_words := 130 }
    scoring_weights := { essential := 0.6, bonus := 0.3, structureW := 0.1 } }

/-- Question 7: Python generators. -/
def criteria6 : Rubric :=
  { qtype := "python_advanced"
    essential_keywords :=
      [("generator_basics", ["generator", "yield", "function", "iterator", "difference"]),
       ("memory", ["memory", "efficient", "lazy", "evaluation", "space"]),
       ("behavior", ["one at a time", "iterate", "next", "value", "state"])]
    bonus_keywords :=
      [("syntax", ["yield from", "generator expression", "comprehension"]),
       ("use_cases", ["large data", "streaming", "pipeline", "processing"]),
       ("concepts", ["coroutine", "send", "throw", "close", "protocol"])]
    negative_keywords := ["same as function", strA ("don*t see benefit"), "complicated"]
    context_patterns :=
      [r"yield\s+\w+",
       r"def\s+\w+.*yield",
       r"memory.*efficient",
       r"lazy.*evaluation"]
    length_expectations := { min_words := 25, optimal_words := 60, max_words := 120 }
    scoring_weights := { essential := 0.7, bonus := 0.2, structureW := 0.1 } }

/-- Question 8: SQL injection prevention. -/
def criteria7 : Rubric :=
  { qtype := "sql_security"
    essential_keywords :=
      [("security_basics", ["sql injection", "prevent", "attack", "security", "vulnerability"]),
       ("techniques", ["parameterized", "prepared statement", "bind", "escape", "sanitize"]),
       ("best_practices", ["validate", "input", "user data", "never", "concatenate"])]
    bonus_keywords :=
      [("specific_methods", ["placeholder", "question mark", "named parameter"]),
       ("frameworks", ["orm", "sqlalchemy", "django orm", "active record"]),
       ("validation", ["whitelist", "type checking", "length limit", "regex"])]
    negative_keywords := ["not important", "never happens", strA ("don*t worry about")]
    context_patterns :=
      [r"parameterized.*query",
       r"prepared.*statement",
       r"never.*concatenate.*user.*input",
       r"validate.*input"]
    length_expectations := { min_words := 30, optimal_words := 70, max_words := 140 }
    scoring_weights := { essential := 0.7, bonus := 0.2, structureW := 0.1 } }

/-- Question 9: Python libraries experience. -/
def criteria8 : Rubric :=
  { qtype := "python_libraries"
    essential_keywords :=
      [("libraries", ["pandas", "numpy", "requests", "library", "experience"]),
       ("usage", ["use", "used", "work", "project", "implement"]),
       ("purpose", ["data", "analysis", "processing", "http", "api"])]
    bonus_keywords :=
      [("specific_functions", ["dataframe", "array", "get", "post", "json"]),
       ("advanced", ["matplotlib", "seaborn", "scipy", "sklearn", "tensorflow"]),
       ("real_world", ["production", "scale", "performance", "optimization"])]
    negative_keywords := ["never used", "only heard of", "too complex"]
    context_patterns :=
      [r"pandas.*dataframe",
       r"numpy.*array",
       r"requests.*get|post",
       r"import\s+\w+"]
    length_expectations := { min_words := 25, optimal_words := 65, max_words := 130 }
    scoring_weights := { essential := 0.6, bonus := 0.3, structureW := 0.1 } }

/-- Question 10: Database schema design. -/
def criteria9 : Rubric :=
  { qtype := "database_design"
    essential_keywords :=
      [("design_basics", ["schema", "design", "database", "table", "relationship"]),
       ("ecommerce", ["user", "product", "order", "customer", "inventory"]),
       ("structure", ["primary key", "foreign key", "normalize", "entity"])]
    bonus_keywords :=
      [("advanced_design", ["normalization", "denormalization", "index", "constraint"]),
       ("ecommerce_specific", ["cart", "payment", "shipping", "category", "review"]),
       ("performance", ["partitioning", "sharding", "replication", "scaling"])]
    negative_keywords := ["one big table", strA ("don*t need relationships"), "simple is better"]
    context_patterns :=
      [r"users?.*table",
       r"products?.*table",
       r"orders?.*table",
       r"one.*to.*many|many.*to.*one"]
    length_expectations := { min_words := 35, optimal_words := 80, max_words := 160 }
    scoring_weights := { essential := 0.6, bonus := 0.3, structureW := 0.1 } }

/-- `self.question_criteria` — the dict keyed by question index. -/
def question_criteria (i : ℤ) : Option Rubric :=
  if i = 0 then some criteria0
  else if i = 1 then some criteria1
  else if i = 2 then some criteria2
  else if i = 3 then some criteria3
  else if i = 4 then some criteria4
  else if i = 5 then some criteria5
  else if i = 6 then some criteria6
  else if i = 7 then some criteria7
  else if i = 8 then some criteria8
  else if i = 9 then some criteria9
  else none

/-- `_initialize_semantic_groups`. -/
def default_semantic_groups : List (String × List String) :=
  [("python_concepts",
    ["object oriented", "functional", "procedural", "interpreted",
     "dynamic typing", "duck typing", "pythonic", "pep8"]),
   ("python_data_structures",
    ["dictionary", "set", "frozenset", "deque", "counter",
     "defaultdict", "namedtuple", "dataclass"]),
   ("sql_operations",
    ["select", "insert", "update", "delete", "create", "drop",
     "alter", "grant", "revoke", "commit", "rollback"]),
   ("database_concepts",
    ["acid", "transaction", "isolation", "consistency", "durability",
     "atomicity", "concurrency", "locking", "deadlock"]),
   ("python_libraries",
    ["django", "flask", "requests", "pandas", "numpy", "matplotlib",
     "seaborn", "sqlalchemy", "pytest", "unittest"]),
   ("sql_functions",
    ["count", "sum", "avg", "max", "min", "group by", "order by",
     "having", "distinct", "union", "intersect", "except"]),
   ("performance_terms",
    ["optimization", "indexing", "caching", "profiling", "benchmarking",
     "bottleneck", "scalability", "efficiency", "throughput"]),
   ("achievement_words",
    ["achieved", "accomplished", "completed", "delivered", "exceeded",
     "improved", "increased", "reduced", "optimized", "enhanced"]),
   ("leadership_words",
    ["led", "managed", "coordinated", "organized", "supervised",
     "guided", "mentored", "facilitated", "directed", "oversaw"]),
   ("collaboration_words",
    ["collaborated", "cooperated", "partnered", "worked together",
     "team effort", "coordinated", "supported", "contributed"]),
   ("problem_solving_words",
    ["solved", "resolved", "addressed", "tackled", "overcame",
     "analyzed", "identified", "implemented", "developed"]),
   ("communication_words",
    ["communicated", "presented", "explained", "discussed",
     "negotiated", "persuaded", "clarified", "documented"])]

/-- `_initialize_synonyms`. -/
def default_synonyms : List (String × List String) :=
  [("experience", ["background", "history", "track record", "expertise"]),
   ("skills", ["abilities", "capabilities", "competencies", "expertise"]),
   ("improve", ["enhance", "develop", "better", "upgrade", "advance"]),
   ("implement", ["code", "develop", "build", "create", "program"]),
   ("function", ["method", "procedure", "subroutine", "callable", "def"]),
   ("variable", ["identifier", "name", "reference", "symbol"]),
   ("framework", ["library", "toolkit", "package", "module"]),
   ("list", ["array", "sequence", "collection"]),
   ("dictionary", ["dict", "hash", "map", "associative array"]),
   ("database", ["db", "data store", "repository", "warehouse"]),
   ("query", ["statement", "command", "sql", "request"]),
   ("table", ["relation", "entity", "dataset", "collection"]),
   ("record", ["row", "tuple", "entry", "item"]),
   ("field", ["column", "attribute", "property", "element"]),
   ("join", ["link", "connect", "merge", "combine"]),
   ("optimize", ["improve", "enhance", "tune", "refactor", "speed up"]),
   ("slow", ["sluggish", "poor performance", "bottleneck", "inefficient"]),
   ("fast", ["quick", "efficient", "optimized", "performant"]),
   ("bug", ["error", "issue", "defect", "problem"]),
   ("fix", ["resolve", "solve", "correct", "repair"]),
   ("test", ["validate", "verify", "check", "examine"])]

/-- Look a group name up in a per-category match map (`defaultdict` read:
absent groups give the empty list). -/
def lookupGroup (m : List (String × List String)) (g : String) : List String :=
  match m.find? (fun p => p.1 == g) with
  | some p => p.2
  | none => []

/-- `_find_exact_matches`, one category: the keywords of each group that are
present in the cleaned transcript. -/
def find_exact_matches (text : Str) (keyword_groups : List (String × List String)) :
    List (String × List String) :=
  keyword_groups.map
    (fun g => (g.1, g.2.filter (fun kw => is_keyword_present text kw.data)))

/-- `_find_semantic_matches`, one category: for every semantic family whose
name and some keyword of the group are in a substring relation (either
direction), record the family words present in the transcript, tagged
`" (semantic)"`. -/
def find_semantic_matches (semantic_groups : List (String × List String))
    (text : Str) (keyword_groups : List (String × List String)) :
    List (String × List String) :=
  keyword_groups.map
    (fun g => (g.1,
      semantic_groups.foldl
        (fun acc fam =>
          if g.2.any (fun kw =>
              containsSub fam.1.data kw.data || containsSub kw.data fam.1.data) then
            acc ++ (fam.2.filter (fun w => is_keyword_present text w.data)).map
              (fun w => w ++ " (semantic)")
          else acc)
        []))

/-- `_find_synonym_matches`, one category: for every keyword with a synonym
table entry, record the synonyms present in the transcript. -/
def find_synonym_matches (synonyms : List (String × List String))
    (text : Str) (keyword_groups : List (String × List String)) :
    List (String × List String) :=
  keyword_groups.map
    (fun g => (g.1,
      g.2.foldl
        (fun acc kw =>
          match synonyms.find? (fun p => p.1 == kw) with
          | some p =>
            acc ++ (p.2.filter (fun syn => is_keyword_present text syn.data)).map
              (fun syn => syn ++ " (synonym for " ++ kw ++ ")")
          | none => acc)
        []))

/-- The loop body of `_calculate_category_score`: one group's contribution. -/
def groupContribution (exact sem : List (String × List String)) (group_name : String) : ℚ :=
  if (lookupGroup exact group_name).length > 0 then 1
  else if (lookupGroup sem group_name).length > 0 then 7/10
  else 0

/-- `_calculate_category_score`. -/
def calculate_category_score (exact sem : List (String × List String))
    (keyword_groups : List (String × List String)) : ℚ :=
  if keyword_groups.length = 0 then 1
  else
    (keyword_groups.foldl (fun acc g => acc + groupContribution exact sem g.1) 0) /
      keyword_groups.length

/-- The fixed discourse-marker list of `_analyze_structure`. -/
def structure_indicators : List String :=
  ["for example", "for instance", "such as", "specifically",
   "first", "second", "then", "next", "finally", "in conclusion",
   "as a result", "therefore", "consequently", "however"]

/-- `_analyze_structure`: length curve plus capped discourse-marker bonus. -/
def analyze_structure (text : Str) (criteria : Rubric) : ℚ :=
  let word_count := (wordsOf text).length
  let le := criteria.length_expectations
  let length_score : ℚ :=
    if word_count < le.min_words then
      (word_count : ℚ) / le.min_words * (1/2)
    else if word_count ≤ le.optimal_words then
      1/2 + ((word_count : ℚ) - le.min_words) /
        ((le.optimal_words : ℚ) - le.min_words) * (1/2)
    else if word_count ≤ le.max_words then
      1 - ((word_count : ℚ) - le.optimal_words) /
        ((le.max_words : ℚ) - le.optimal_words) * (1/5)
    else
      4/5 - min (((word_count : ℚ) - le.max_words) / 50) (3/10)
  let text_lower := pyLower text
  let structure_bonus :=
    structure_indicators.foldl
      (fun acc ind => if containsSub text_lower ind.data then acc + 1/10 else acc)
      (0 : ℚ)
  let structure_bonus := min structure_bonus (3/10)
  min 1 (length_score + structure_bonus)

/-- `_calculate_negative_penalty`: 1.0 per negative phrase present. -/
def calculate_negative_penalty (text : Str) (criteria : Rubric) : ℚ :=
  criteria.negative_keywords.foldl
    (fun penalty k => if is_keyword_present text k.data then penalty + 1 else penalty)
    0

/-- CPython `round(x, 1)` on the values arising here. -/
def pyRound1 (q : ℚ) : ℚ := ((⌊q * 10 + 1/2⌋ : ℤ) : ℚ) / 10

/-- CPython `round(x, 2)` on the values arising here. -/
def pyRound2 (q : ℚ) : ℚ := ((⌊q * 100 + 1/2⌋ : ℤ) : ℚ) / 100

/-- The `detailed_breakdown` part of the evaluation result. -/
structure DetailedBreakdown where
  essential_score : ℚ
  bonus_score : ℚ
  structure_score : ℚ
  negative_penalty : ℚ
deriving DecidableEq

/-- The `matches_found` part of the evaluation result. -/
structure MatchesFound where
  exact_essential : List (String × List String)
  exact_bonus : List (String × List String)
  semantic_essential : List (String × List String)
  semantic_bonus : List (String × List String)
  synonym_essential : List (String × List String)
  synonym_bonus : List (String × List String)
  patterns : List String
deriving DecidableEq

/-- `_analyze_coverage` result (the two `"x/y"` display strings are kept as
numeric pairs). -/
structure CoverageAnalysis where
  essential_coverage : ℚ
  bonus_coverage : ℚ
  essential_groups_covered : ℕ × ℕ
  bonus_groups_covered : ℕ × ℕ
deriving DecidableEq

/-- Number of groups with any exact-or-semantic hit (truthiness of the
looked-up lists in the source). -/
def countCovered (exact sem : List (String × List String))
    (keyword_groups : List (String × List String)) : ℕ :=
  (keyword_groups.filter
    (fun g => !(lookupGroup exact g.1).isEmpty || !(lookupGroup sem g.1).isEmpty)).length

/-- `_analyze_coverage`. -/
def analyze_coverage (exact_essential sem_essential exact_bonus sem_bonus :
    List (String × List String)) (criteria : Rubric) : CoverageAnalysis :=
  let totE := criteria.essential_keywords.length
  let totB := criteria.bonus_keywords.length
  let cE := countCovered exact_essential sem_essential criteria.essential_keywords
  let cB := countCovered exact_bonus sem_bonus criteria.bonus_keywords
  { essential_coverage := if 0 < totE then pyRound1 ((cE : ℚ) / totE * 100) else 100
    bonus_coverage := if 0 < totB then pyRound1 ((cB : ℚ) / totB * 100) else 100
    essential_groups_covered := (cE, totE)
    bonus_groups_covered := (cB, totB) }

/-- `str.replace('_', ' ')`. -/
def underscoreToSpace (s : String) : String :=
  ⟨s.data.map (fun c => if c = '_' then spc else c)⟩

/-- `_generate_suggestions`. -/
def generate_suggestions (exact_essential : List (String × List String))
    (criteria : Rubric) : List String :=
  let base :=
    criteria.essential_keywords.foldl
      (fun acc g =>
        if (lookupGroup exact_essential g.1).isEmpty then
          acc ++ ["Consider mentioning " ++ underscoreToSpace g.1 ++ ": " ++
            String.intercalate ", " (g.2.take 3)]
        else acc)
      []
  let base :=
    if criteria.qtype == "behavioral_STAR" then
      base ++ ["Use the STAR method: Situation, Task, Action, Result"]
    else base
  base.take 3

/-- The full-result dictionary of `evaluate_keywords_advanced` for a known
question index. -/
structure KwResult where
  keyword_score : ℚ
  detailed_breakdown : DetailedBreakdown
  matches_found : MatchesFound
  coverage_analysis : CoverageAnalysis
  improvement_suggestions : List String
deriving DecidableEq

/-- The return value of `evaluate_keywords_advanced`: the sentinel dict
`{"keyword_score": 0, "details": "Question not found"}` or a full result. -/
inductive KwEval where
  | notFound
  | ok (r : KwResult)
deriving DecidableEq

/-- A regex engine for `_find_pattern_matches`: given the rubric's pattern
list and the raw transcript, the flat list of matched fragments.  The source
uses `re.findall(pattern, text, re.IGNORECASE)`; the engine is abstract here
because its output is stored as evidence only. -/
abbrev PatternMatcher := List String → Str → List String

/-- A pattern matcher returning no matches (used to instantiate concrete
runs; the scoring computation ignores the matcher's output). -/
def noPatterns : PatternMatcher := fun _ _ => []

/-- `evaluate_keywords_advanced(transcript, question_index)`. -/
def evaluate_keywords_advanced (semantic_groups synonyms : List (String × List String))
    (patternMatcher : PatternMatcher) (question_index : ℤ) (transcript : Str) : KwEval :=
  match question_criteria question_index with
  | none => .notFound
  | some criteria =>
    let transcript_clean := clean_text transcript
    let exact_essential := find_exact_matches transcript_clean criteria.essential_keywords
    let exact_bonus := find_exact_matches transcript_clean criteria.bonus_keywords
    let sem_essential :=
      find_semantic_matches semantic_groups transcript_clean criteria.essential_keywords
    let sem_bonus :=
      find_semantic_matches semantic_groups transcript_clean criteria.bonus_keywords
    let pattern_matches := patternMatcher criteria.context_patterns transcript
    let syn_essential :=
      find_synonym_matches synonyms transcript_clean criteria.essential_keywords
    let syn_bonus :=
      find_synonym_matches synonyms transcript_clean criteria.bonus_keywords
    let essential_score :=
      calculate_category_score exact_essential sem_essential criteria.essential_keywords
    let bonus_score :=
      calculate_category_score exact_bonus sem_bonus criteria.bonus_keywords
    let structure_score := analyze_structure transcript criteria
    let weights := criteria.scoring_weights
    let final_score :=
      (essential_score * weights.essential + bonus_score * weights.bonus +
        structure_score * weights.structureW) * 10
    let negative_penalty := calculate_negative_penalty transcript_clean criteria
    let final_score := max 0 (final_score - negative_penalty)
    .ok
      { keyword_score := pyRound1 (min 10 final_score)
        detailed_breakdown :=
          { essential_score := pyRound2 essential_score
            bonus_score := pyRound2 bonus_score
            structure_score := pyRound2 structure_score
            negative_penalty := negative_penalty }
        matches_found :=
          { exact_essential := exact_essential
            exact_bonus := exact_bonus
            semantic_essential := sem_essential
            semantic_bonus := sem_bonus
            synonym_essential := syn_essential
            synonym_bonus := syn_bonus
            patterns := pattern_matches }
        coverage_analysis :=
          analyze_coverage exact_essential sem_essential exact_bonus sem_bonus criteria
        improvement_suggestions := generate_suggestions exact_essential criteria }

/-- The `keyword_score` entry (present in both the sentinel and the full
result dictionaries). -/
def kwScoreOf : KwEval → ℚ
  | .notFound => 0
  | .ok r => r.keyword_score

/-- The `detailed_breakdown` entry (absent from the sentinel dictionary). -/
def kwBreakdownOf : KwEval → Option DetailedBreakdown
  | .notFound => none
  | .ok r => some r.detailed_breakdown

/-- The `negative_penalty` component (0 for the sentinel, which has no
breakdown at all). -/
def kwPenaltyOf : KwEval → ℚ
  | .notFound => 0
  | .ok r => r.detailed_breakdown.negative_penalty

/-- The per-question record returned by `evaluate_single_answer`. -/
structure SingleAnswerEval where
  question_index : ℤ
  question_type : String
  combined_score : ℚ
  keyword_evaluation : KwResult
  coverage_analysis : CoverageAnalysis
  improvement_suggestions : List String
deriving DecidableEq

/-- `evaluate_single_answer(question_index, question_text, transcript)`.

For an unknown index, `evaluate_keywords_advanced` returns the sentinel
dictionary; the very next line of the source,
`keyword_results['coverage_analysis']['essential_coverage']`, then raises
`KeyError` (the sentinel has no such key), modelled as `Except.error`. -/
def evaluate_single_answer (semantic_groups synonyms : List (String × List String))
    (patternMatcher : PatternMatcher) (question_index : ℤ) (question_text : String)
    (transcript : Str) : Except String SingleAnswerEval :=
  match evaluate_keywords_advanced semantic_groups synonyms patternMatcher
      question_index transcript with
  | .notFound => .error "KeyError: coverage_analysis"
  | .ok keyword_results =>
    let criteria_type :=
      match question_criteria question_index with
      | some c => c.qtype
      | none => "general"
    .ok
      { question_index := question_index
        question_type := criteria_type
        combined_score := keyword_results.keyword_score
        keyword_evaluation := keyword_results
        coverage_analysis := keyword_results.coverage_analysis
        improvement_suggestions := keyword_results.improvement_suggestions }

/-- One entry of `session_data["questions_data"]` — a mutable Python dict,
modelled as a heap record. -/
structure QuestionData where
  question_number : ℤ
  question_text : String
  transcript : Str
  answer_evaluation : Option SingleAnswerEval
deriving DecidableEq

/-- The heap of question records; addresses are list positions.  Mutating a
dict in place is modelled by `List.set` at its address. -/
abbrev Heap := List QuestionData

/-- `session_data`: holds references (addresses) to its question records.
A shallow `session_data.copy()` yields a session with the same reference
list, so the records stay shared. -/
structure SessionData where
  questions_data : List ℕ
deriving DecidableEq

/-- The `content_analysis_summary` dictionary. -/
structure ScoreDistribution where
  excellent : ℕ
  good : ℕ
  fair : ℕ
  poor : ℕ
deriving DecidableEq

structure ContentSummary where
  average_content_score : ℚ
  highest_score : ℚ
  lowest_score : ℚ
  total_questions_evaluated : ℕ
  questions_above_7 : ℕ
  questions_below_5 : ℕ
  score_distribution : ScoreDistribution
deriving DecidableEq

/-- Build the summary from a non-empty score list (head and tail). -/
def mkSummary (s0 : ℚ) (rest : List ℚ) : ContentSummary :=
  let all_scores := s0 :: rest
  { average_content_score :=
      pyRound1 ((all_scores.foldl (· + ·) 0) / (all_scores.length : ℚ))
    highest_score := rest.foldl max s0
    lowest_score := rest.foldl min s0
    total_questions_evaluated := all_scores.length
    questions_above_7 := all_scores.countP (fun s => decide ((7 : ℚ) ≤ s))
    questions_below_5 := all_scores.countP (fun s => decide (s < (5 : ℚ)))
    score_distribution :=
      { excellent := all_scores.countP (fun s => decide ((8 : ℚ) ≤ s))
        good := all_scores.countP (fun s => decide ((6 : ℚ) ≤ s ∧ s < 8))
        fair := all_scores.countP (fun s => decide ((4 : ℚ) ≤ s ∧ s < 6))
        poor := all_scores.countP (fun s => decide (s < (4 : ℚ))) } }

/-- `if all_scores: ... else: ...` — no summary is attached when nothing was
evaluated. -/
def summaryOpt : List ℚ → Option ContentSummary
  | [] => none
  | s0 :: rest => some (mkSummary s0 rest)

/-- The loop of `evaluate_full_interview`: walk the question records in
order, skip those whose stripped transcript is empty, evaluate the rest and
write the evaluation back into the record (in-place dict mutation), and
collect the scores.  An exception (e.g. the unknown-index `KeyError`)
propagates out as `Except.error`. -/
def evalLoop (semantic_groups synonyms : List (String × List String))
    (patternMatcher : PatternMatcher) (h : Heap) :
    List ℕ → Except String (Heap × List ℚ)
  | [] => .ok (h, [])
  | a :: rest =>
    match h[a]? with
    | none => .error "invalid reference"
    | some question_data =>
      if stripWs question_data.transcript = [] then
        evalLoop semantic_groups synonyms patternMatcher h rest
      else
        match evaluate_single_answer semantic_groups synonyms patternMatcher
            (question_data.question_number - 1) question_data.question_text
            question_data.transcript with
        | .error e => .error e
        | .ok evaluation =>
          match evalLoop semantic_groups synonyms patternMatcher
              (h.set a { question_data with answer_evaluation := some evaluation })
              rest with
          | .error e => .error e
          | .ok (h2, scores) => .ok (h2, evaluation.combined_score :: scores)

/-- `evaluate_full_interview(session_data)`.  `enhanced_session =
session_data.copy()` is a shallow copy: the returned session holds the very
same `questions_data` reference list, so the evaluated records are shared
with — and the in-place updates are visible through — the caller's
`session_data`. -/
def evaluate_full_interview (semantic_groups synonyms : List (String × List String))
    (patternMatcher : PatternMatcher) (h : Heap) (session_data : SessionData) :
    Except String (Heap × SessionData × Option ContentSummary) :=
  match evalLoop semantic_groups synonyms patternMatcher h session_data.questions_data with
  | .error e => .error e
  | .ok (h2, all_scores) => .ok (h2, session_data, summaryOpt all_scores)

/-! ### Helper lemmas shared across the development -/

/-- A successful word-boundary search implies plain substring containment
(the regex can only match where the literal keyword occurs). -/
theorem wbSearch_containsSub (kw : Str) (prev : Option Char) (t : Str)
    (h : wbSearch kw prev t = true) : containsSub t kw = true := by
  induction t generalizing prev with
  | nil =>
    simp only [wbSearch, wbMatchAt, Bool.or_false, Bool.and_eq_true] at h
    simp only [containsSub, Bool.or_false]
    exact h.1.1
  | cons c cs ih =>
    simp only [wbSearch, wbMatchAt, Bool.or_eq_true, Bool.and_eq_true] at h
    rcases h with hm | hrest
    · simp only [containsSub, hm.1.1, Bool.true_or]
    · have := ih (some c) hrest
      simp only [containsSub, this, Bool.or_true]

/-- Folding `if p x then acc + w else acc` over a list adds `w` once per
element satisfying `p`. -/
theorem foldl_count_add {α : Type} (p : α → Bool) (w : ℚ) (l : List α) :
    ∀ acc : ℚ,
      l.foldl (fun a x => if p x then a + w else a) acc = acc + (l.countP p : ℚ) * w := by
  induction l with
  | nil => intro acc; simp
  | cons x xs ih =>
    intro acc
    by_cases hx : p x
    · simp only [List.foldl_cons, hx, if_true, ih, List.countP_cons, hx, if_pos]
      push_cast
      ring
    · simp only [List.foldl_cons, hx, if_false, ih, List.countP_cons, if_neg hx]
      push_cast
      ring

/-- Folding `acc + f x` over a list equals `acc` plus the sum of the images. -/
theorem foldl_add_map_sum {α : Type} (f : α → ℚ) (l : List α) :
    ∀ acc : ℚ, l.foldl (fun a x => a + f x) acc = acc + (l.map f).sum := by
  induction l with
  | nil => intro acc; simp
  | cons x xs ih =>
    intro acc
    simp only [List.foldl_cons, ih, List.map_cons, List.sum_cons]
    ring

/-- `pyRound1` maps `[0, 10]` into `[0, 10]`. -/
theorem pyRound1_bounds (x : ℚ) (h0 : 0 ≤ x) (h1 : x ≤ 10) :
    0 ≤ pyRound1 x ∧ pyRound1 x ≤ 10 := by
  constructor
  · have hf : (0 : ℤ) ≤ ⌊x * 10 + 1/2⌋ := Int.floor_nonneg.2 (by nlinarith)
    unfold pyRound1
    positivity
  · unfold pyRound1
    have h2 : ⌊x * 10 + 1/2⌋ ≤ 100 := by
      have hle : ⌊x * 10 + 1/2⌋ ≤ ⌊(201 : ℚ)/2⌋ := Int.floor_le_floor (by nlinarith)
      exact hle.trans (by norm_num)
    have h3 : ((⌊x * 10 + 1/2⌋ : ℤ) : ℚ) ≤ 100 := by exact_mod_cast h2
    linarith

/-! ### C2 — the keyword presence test -/

/-- C2 (counterexample): the claim says the presence test returns true only
for whole-word/whole-phrase matches bounded by non-word characters, and in
particular that "art" inside "party" is reported as not present.  In the
code the substring fast path fires first: `_is_keyword_present("party",
"art")` is true even though the word-boundary regex finds nothing. -/
theorem C2_counterexample :
    is_keyword_present (("party").data) (("art").data) = true ∧
      wbSearch (("art").data) none (("party").data) = false := by
  decide

/-- The presence test coincides with plain substring containment (shared
helper; the word-boundary branches can only return false when reached). -/
theorem presence_eq_containsSub (text keyword : Str) :
    is_keyword_present text keyword = containsSub text keyword := by
  unfold is_keyword_present
  cases hc : containsSub text keyword
  · cases hw : wbSearch keyword none text
    · simp [hw]
    · exact absurd (wbSearch_containsSub keyword none text hw) (by simp [hc])
  · simp

/-- C2 (amended): the presence test is exactly substring containment — the
word-boundary branches are reached only when the substring test failed, and
then they always return false, so they never decide presence.  In
particular a phrase occurring solely inside a larger word (e.g. "art"
inside "party") IS reported as present. -/
theorem C2_presence_eq_substring (text keyword : Str) :
    is_keyword_present text keyword = containsSub text keyword :=
  presence_eq_containsSub text keyword

/-! ### C3 — unknown question index -/

/-- C3: for an index with no rubric entry, `evaluate_keywords_advanced`
returns the flagged sentinel (score 0, details "Question not found") — but
`evaluate_single_answer` then immediately reads
`keyword_results['coverage_analysis']`, which the sentinel does not have,
and raises `KeyError`, so batch evaluation of a session DOES abort on one
bad index.  The claim (and the spec's intent, which the sentinel shows) is
that no exception escapes; the code contradicts it. -/
theorem C3_unknown_question (qi : ℤ) (h : question_criteria qi = none)
    (semantic_groups synonyms : List (String × List String)) (pm : PatternMatcher)
    (question_text : String) (t : Str) :
    evaluate_keywords_advanced semantic_groups synonyms pm qi t = .notFound ∧
      evaluate_single_answer semantic_groups synonyms pm qi question_text t =
        .error "KeyError: coverage_analysis" := by
  have h1 : evaluate_keywords_advanced semantic_groups synonyms pm qi t = .notFound := by
    simp [evaluate_keywords_advanced, h]
  exact ⟨h1, by simp [evaluate_single_answer, h1]⟩

/-- C3 witness: index 10 has no rubric entry; evaluating it raises. -/
theorem C3_witness :
    question_criteria 10 = none ∧
      evaluate_single_answer default_semantic_groups default_synonyms noPatterns 10
        ("What is SQL?") (("hello").data) = .error "KeyError: coverage_analysis" :=
  ⟨rfl, (C3_unknown_question 10 rfl default_semantic_groups default_synonyms noPatterns
    ("What is SQL?") (("hello").data)).2⟩

/-! ### C8 — pattern matches never influence the score -/

/-- C8: the final keyword score and the essential/bonus/structure/penalty
breakdown do not depend on the pattern-match results: evaluations that
differ only in the regex engine used for `context_patterns` (including one
that matches nothing at all, i.e. pattern matching removed) produce the
same score and the same breakdown. -/
theorem C8_patterns_no_effect (semantic_groups synonyms : List (String × List String))
    (pm1 pm2 : PatternMatcher) (qi : ℤ) (t : Str) :
    kwScoreOf (evaluate_keywords_advanced semantic_groups synonyms pm1 qi t) =
      kwScoreOf (evaluate_keywords_advanced semantic_groups synonyms pm2 qi t) ∧
    kwBreakdownOf (evaluate_keywords_advanced semantic_groups synonyms pm1 qi t) =
      kwBreakdownOf (evaluate_keywords_advanced semantic_groups synonyms pm2 qi t) := by
  cases h : question_criteria qi <;>
    simp [evaluate_keywords_advanced, h, kwScoreOf, kwBreakdownOf]

/-! ### C5 — category score formula; synonyms never move it -/

/-- One group's contribution, phrased through list emptiness. -/
theorem groupContribution_eq (exact sem : List (String × List String)) (g : String) :
    groupContribution exact sem g =
      if lookupGroup exact g ≠ [] then (1 : ℚ)
      else if lookupGroup sem g ≠ [] then 7/10
      else 0 := by
  simp only [groupContribution, gt_iff_lt, List.length_pos, ne_eq]

/-- The category-score formula as §4.4 of the spec words it: each group
contributes 1.0 on an exact hit, otherwise 0.7 on a semantic hit, otherwise
0; the total is divided by the number of groups; zero groups score 1.0. -/
def categoryScoreSpec (exact sem : List (String × List String))
    (keyword_groups : List (String × List String)) : ℚ :=
  if keyword_groups.length = 0 then 1
  else
    ((keyword_groups.map (fun g =>
        if lookupGroup exact g.1 ≠ [] then (1 : ℚ)
        else if lookupGroup sem g.1 ≠ [] then 7/10
        else 0)).sum) / keyword_groups.length

/-- C5: for every category and every pair of match maps (so in particular
for the maps computed from any transcript), the code's category score is
exactly the spec formula; and the synonym matches never change the keyword
score or any component of the breakdown — replacing the synonym table by
any other table leaves both untouched. -/
theorem C5_category_score :
    (∀ exact sem keyword_groups,
      calculate_category_score exact sem keyword_groups =
        categoryScoreSpec exact sem keyword_groups) ∧
    (∀ semantic_groups syns1 syns2 pm (qi : ℤ) (t : Str),
      kwScoreOf (evaluate_keywords_advanced semantic_groups syns1 pm qi t) =
        kwScoreOf (evaluate_keywords_advanced semantic_groups syns2 pm qi t) ∧
      kwBreakdownOf (evaluate_keywords_advanced semantic_groups syns1 pm qi t) =
        kwBreakdownOf (evaluate_keywords_advanced semantic_groups syns2 pm qi t)) := by
  constructor
  · intro exact sem keyword_groups
    unfold calculate_category_score categoryScoreSpec
    by_cases hl : keyword_groups.length = 0
    · simp [hl]
    · simp only [hl, if_false, foldl_add_map_sum, zero_add, groupContribution_eq]
  · intro semantic_groups syns1 syns2 pm qi t
    cases h : question_criteria qi <;>
      simp [evaluate_keywords_advanced, h, kwScoreOf, kwBreakdownOf]

/-! ### C4 — final score composition and bounds -/

/-- `clamp(x, lo, hi)` as the spec uses it. -/
def clamp (x lo hi : ℚ) : ℚ := min hi (max lo x)

theorem clamp_nonneg_of (x lo hi : ℚ) (h0 : 0 ≤ lo) (h1 : 0 ≤ hi) : 0 ≤ clamp x lo hi :=
  le_min h1 (le_trans h0 (le_max_left lo x))

theorem clamp_le_hi (x lo hi : ℚ) : clamp x lo hi ≤ hi := min_le_left hi _

/-- C4: for a known question index the final keyword score is exactly
`round₁(clamp(raw − penalty, 0, 10))` with
`raw = (essential·w_e + bonus·w_b + structure·w_s)·10`, and in particular
it always lies in `[0, 10]`. -/
theorem C4_final_score_formula (semantic_groups synonyms : List (String × List String))
    (pm : PatternMatcher) (qi : ℤ) (e : Rubric) (h : question_criteria qi = some e)
    (t : Str) :
    kwScoreOf (evaluate_keywords_advanced semantic_groups synonyms pm qi t) =
      pyRound1 (clamp
        ((calculate_category_score (find_exact_matches (clean_text t) e.essential_keywords)
            (find_semantic_matches semantic_groups (clean_text t) e.essential_keywords)
            e.essential_keywords * e.scoring_weights.essential +
          calculate_category_score (find_exact_matches (clean_text t) e.bonus_keywords)
            (find_semantic_matches semantic_groups (clean_text t) e.bonus_keywords)
            e.bonus_keywords * e.scoring_weights.bonus +
          analyze_structure t e * e.scoring_weights.structureW) * 10 -
          calculate_negative_penalty (clean_text t) e) 0 10) ∧
    0 ≤ kwScoreOf (evaluate_keywords_advanced semantic_groups synonyms pm qi t) ∧
    kwScoreOf (evaluate_keywords_advanced semantic_groups synonyms pm qi t) ≤ 10 := by
  have hks :
      kwScoreOf (evaluate_keywords_advanced semantic_groups synonyms pm qi t) =
        pyRound1 (clamp
          ((calculate_category_score (find_exact_matches (clean_text t) e.essential_keywords)
              (find_semantic_matches semantic_groups (clean_text t) e.essential_keywords)
              e.essential_keywords * e.scoring_weights.essential +
            calculate_category_score (find_exact_matches (clean_text t) e.bonus_keywords)
              (find_semantic_matches semantic_groups (clean_text t) e.bonus_keywords)
              e.bonus_keywords * e.scoring_weights.bonus +
            analyze_structure t e * e.scoring_weights.structureW) * 10 -
            calculate_negative_penalty (clean_text t) e) 0 10) := by
    simp [evaluate_keywords_advanced, h, kwScoreOf, clamp]
  refine ⟨hks, ?_, ?_⟩
  · rw [hks]
    exact (pyRound1_bounds _ (clamp_nonneg_of _ _ _ le_rfl (by norm_num))
      (clamp_le_hi _ _ _)).1
  · rw [hks]
    exact (pyRound1_bounds _ (clamp_nonneg_of _ _ _ le_rfl (by norm_num))
      (clamp_le_hi _ _ _)).2

/-- C4 witness: question index 0 is known; its score on a concrete
transcript obeys the bound. -/
theorem C4_witness :
    question_criteria 0 = some criteria0 ∧
      0 ≤ kwScoreOf (evaluate_keywords_advanced default_semantic_groups default_synonyms
            noPatterns 0 (("hello").data)) :=
  ⟨rfl, (C4_final_score_formula default_semantic_groups default_synonyms noPatterns 0
    criteria0 rfl (("hello").data)).2.1⟩

/-! ### C1 — question 7 on the transcript "I don't know" -/

/-- C1 (counterexample): the claim says this input triggers the negative
keyword "don't know" (penalty ≥ 1) and clamps the final score to 0.
Neither holds: question 7's `negative_keywords` are "not important",
"never happens" and "don't worry about" (the phrase "don't know" belongs to
questions 0, 1 and 3), and `_clean_text` rewrites `n't` to ` not` before
the penalty test anyway, so the penalty is 0 and the score is positive. -/
theorem C1_counterexample :
    ¬ ((1 : ℚ) ≤ kwPenaltyOf (evaluate_keywords_advanced default_semantic_groups
          default_synonyms noPatterns 7 (litA ("I don*t know"))) ∧
       kwScoreOf (evaluate_keywords_advanced default_semantic_groups default_synonyms
          noPatterns 7 (litA ("I don*t know"))) = 0) := by
  have hc : question_criteria 7 = some criteria7 := rfl
  have hclean : clean_text (litA ("I don*t know")) = ("i do not know").data := by decide
  have hpen : calculate_negative_penalty (("i do not know").data) criteria7 = 0 := by
    unfold calculate_negative_penalty
    rw [foldl_count_add]
    have hcnt : List.countP (fun k => is_keyword_present (("i do not know").data) k.data)
        criteria7.negative_keywords = 0 := by decide
    rw [hcnt]
    norm_num
  intro hcl
  have h1 := hcl.1
  simp only [evaluate_keywords_advanced, hc, kwPenaltyOf, hclean, hpen] at h1
  norm_num at h1

/-- Looking any group up in a match map whose values are all empty gives
the empty list. -/
theorem lookupGroup_all_nil (m : List (String × List String))
    (h : ∀ p ∈ m, p.2 = []) (g : String) : lookupGroup m g = [] := by
  unfold lookupGroup
  cases hf : m.find? (fun p => p.1 == g) with
  | none => rfl
  | some p => exact h p (List.mem_of_find?_eq_some hf)

/-- C1 (amended): on question index 7 with transcript "I don't know" no
negative keyword fires (penalty 0: index 7's negative list is
["not important", "never happens", "don't worry about"], and the cleaner
has already rewritten the text to "i do not know"), essential and bonus
coverage are zero, and the final combined score is the structure-length
component alone: `round((0.05·0.1)·10, 1) = 0.1`, not 0. -/
theorem C1_amended_eval :
    kwPenaltyOf (evaluate_keywords_advanced default_semantic_groups default_synonyms
        noPatterns 7 (litA ("I don*t know"))) = 0 ∧
    kwScoreOf (evaluate_keywords_advanced default_semantic_groups default_synonyms
        noPatterns 7 (litA ("I don*t know"))) = 1/10 := by
  have hc : question_criteria 7 = some criteria7 := rfl
  have hclean : clean_text (litA ("I don*t know")) = ("i do not know").data := by decide
  have hpen : calculate_negative_penalty (("i do not know").data) criteria7 = 0 := by
    unfold calculate_negative_penalty
    rw [foldl_count_add]
    have hcnt : List.countP (fun k => is_keyword_present (("i do not know").data) k.data)
        criteria7.negative_keywords = 0 := by decide
    rw [hcnt]
    norm_num
  have hexE : find_exact_matches (("i do not know").data) criteria7.essential_keywords =
      [("security_basics", []), ("techniques", []), ("best_practices", [])] := by decide
  have hsemE : find_semantic_matches default_semantic_groups (("i do not know").data)
      criteria7.essential_keywords =
      [("security_basics", []), ("techniques", []), ("best_practices", [])] := by decide
  have hexB : find_exact_matches (("i do not know").data) criteria7.bonus_keywords =
      [("specific_methods", []), ("frameworks", []), ("validation", [])] := by decide
  have hsemB : find_semantic_matches default_semantic_groups (("i do not know").data)
      criteria7.bonus_keywords =
      [("specific_methods", []), ("frameworks", []), ("validation", [])] := by decide
  have hempty : ∀ g : String,
      groupContribution [("security_basics", []), ("techniques", []), ("best_practices", [])]
        [("security_basics", []), ("techniques", []), ("best_practices", [])] g = 0 := by
    intro g
    rw [groupContribution_eq, lookupGroup_all_nil _ (by decide) g]
    simp
  have hemptyB : ∀ g : String,
      groupContribution [("specific_methods", []), ("frameworks", []), ("validation", [])]
        [("specific_methods", []), ("frameworks", []), ("validation", [])] g = 0 := by
    intro g
    rw [groupContribution_eq, lookupGroup_all_nil _ (by decide) g]
    simp
  have hess : calculate_category_score
      [("security_basics", []), ("techniques", []), ("best_practices", [])]
      [("security_basics", []), ("techniques", []), ("best_practices", [])]
      criteria7.essential_keywords = 0 := by
    unfold calculate_category_score
    rw [foldl_add_map_sum]
    simp [hempty, criteria7]
  have hbon : calculate_category_score
      [("specific_methods", []), ("frameworks", []), ("validation", [])]
      [("specific_methods", []), ("frameworks", []), ("validation", [])]
      criteria7.bonus_keywords = 0 := by
    unfold calculate_category_score
    rw [foldl_add_map_sum]
    simp [hemptyB, criteria7]
  have hwc : (wordsOf (litA ("I don*t know"))).length = 3 := by decide
  have hcnt2 : List.countP
      (fun ind => containsSub (pyLower (litA ("I don*t know"))) ind.data)
      structure_indicators = 0 := by decide
  have hstruct : analyze_structure (litA ("I don*t know")) criteria7 = 1/20 := by
    simp only [analyze_structure, hwc]
    rw [foldl_count_add, hcnt2]
    norm_num [criteria7]
  constructor
  · simp only [evaluate_keywords_advanced, hc, kwPenaltyOf, hclean, hpen]
  · simp only [evaluate_keywords_advanced, hc, kwScoreOf, hclean, hexE, hsemE, hexB,
      hsemB, hess, hbon, hstruct, hpen]
    norm_num [criteria7, pyRound1]

/-! ### C7 — length-curve boundary values -/

/-- Every rubric entry in the table has strictly increasing length bounds. -/
theorem criteria_length_valid (qi : ℤ) (e : Rubric) (h : question_criteria qi = some e) :
    e.length_expectations.min_words < e.length_expectations.optimal_words ∧
    e.length_expectations.optimal_words < e.length_expectations.max_words := by
  unfold question_criteria at h
  split_ifs at h
  all_goals injection h with h
  all_goals subst h
  all_goals decide

/-- The discourse-marker bonus is non-negative. -/
theorem indicator_bonus_nonneg (lt : Str) :
    (0 : ℚ) ≤ min
      (structure_indicators.foldl
        (fun acc ind => if containsSub lt ind.data then acc + 1/10 else acc) 0)
      (3/10) := by
  refine le_min ?_ (by norm_num)
  rw [foldl_count_add]
  positivity

/-- A transcript of exactly 25 words (question 1's `min_words`) containing
the discourse marker "for example". -/
def c7Short : Str := ("for example").data ++ (List.replicate 23 [spc, 'a']).flatten

/-- C7 (counterexample): the claim says the structure score is exactly 0.5
for EVERY transcript whose word count equals `min_words`.  The structure
score also includes the discourse-marker bonus, so a 25-word answer to
question 1 containing "for example" scores 0.6, not 0.5 (only the
`optimal_words` half of the claim is universally true, because there the
bonus is absorbed by the cap at 1.0). -/
theorem C7_counterexample :
    question_criteria 1 = some criteria1 ∧
    criteria1.length_expectations.min_words = 25 ∧
    (wordsOf c7Short).length = 25 ∧
    analyze_structure c7Short criteria1 = 3/5 ∧
    analyze_structure c7Short criteria1 ≠ 1/2 := by
  have hwc : (wordsOf c7Short).length = 25 := by decide
  have hcnt : List.countP (fun ind => containsSub (pyLower c7Short) ind.data)
      structure_indicators = 1 := by decide
  have hval : analyze_structure c7Short criteria1 = 3/5 := by
    simp only [analyze_structure, hwc]
    rw [foldl_count_add, hcnt]
    norm_num [criteria1]
  exact ⟨rfl, rfl, hwc, hval, by rw [hval]; norm_num⟩

/-- C7 (amended): at `n = min_words` the length component is exactly 0.5,
so the structure score is exactly 0.5 whenever no discourse-marker phrase
occurs in the transcript; at `n = optimal_words` the structure score is
exactly 1.0 for every transcript (the bonus is clamped away by the 1.0
cap).  The piecewise length curve itself is continuous at both segment
boundaries. -/
theorem C7_length_boundaries (qi : ℤ) (e : Rubric) (h : question_criteria qi = some e)
    (t : Str) :
    ((wordsOf t).length = e.length_expectations.min_words →
      (∀ ind ∈ structure_indicators, containsSub (pyLower t) ind.data = false) →
      analyze_structure t e = 1/2) ∧
    ((wordsOf t).length = e.length_expectations.optimal_words →
      analyze_structure t e = 1) := by
  obtain ⟨hmo, _⟩ := criteria_length_valid qi e h
  constructor
  · intro hwc hind
    have hcnt : List.countP (fun ind => containsSub (pyLower t) ind.data)
        structure_indicators = 0 := by
      rw [List.countP_eq_zero]
      intro a ha
      simp [hind a ha]
    simp only [analyze_structure, hwc]
    rw [foldl_count_add, hcnt]
    rw [if_neg (lt_irrefl e.length_expectations.min_words), if_pos (le_of_lt hmo)]
    norm_num
  · intro hwc
    have hsb := indicator_bonus_nonneg (pyLower t)
    simp only [analyze_structure, hwc]
    rw [if_neg (not_lt.2 (le_of_lt hmo)), if_pos (le_refl e.length_expectations.optimal_words)]
    have hne : ((e.length_expectations.optimal_words : ℚ) -
        e.length_expectations.min_words) ≠ 0 := by
      have hlt : (e.length_expectations.min_words : ℚ) <
          e.length_expectations.optimal_words := by exact_mod_cast hmo
      linarith
    rw [div_self hne]
    rw [min_eq_left (by linarith [hsb])]

/-- A transcript of exactly 25 bare words. -/
def c7MinInput : Str := intercalateSp (List.replicate 25 [('a' : Char)])

/-- A transcript of exactly 60 bare words. -/
def c7OptInput : Str := intercalateSp (List.replicate 60 [('a' : Char)])

/-- C7 witness: question 1 (`min_words = 25`, `optimal_words = 60`) on
25 and 60 plain words. -/
theorem C7_witness :
    analyze_structure c7MinInput criteria1 = 1/2 ∧
    analyze_structure c7OptInput criteria1 = 1 :=
  ⟨(C7_length_boundaries 1 criteria1 rfl c7MinInput).1 (by decide) (by decide),
   (C7_length_boundaries 1 criteria1 rfl c7OptInput).2 (by decide)⟩

/-! ### C9 — support: characterising `stripWs ∘ collapseWs` through words -/

theorem isWs_spc : isWs spc = true := by decide

theorem toLowerAscii_spc : toLowerAscii spc = spc := by decide

/-- `rstripWs` on a cons: the head survives unless everything after it
strips away and the head itself is whitespace. -/
theorem rstripWs_cons (a : Char) (x : Str) :
    rstripWs (a :: x) =
      if rstripWs x = [] then (if isWs a then [] else [a]) else a :: rstripWs x := by
  unfold rstripWs
  rw [List.reverse_cons, List.dropWhile_append]
  rcases hx : x.reverse.dropWhile isWs with _ | ⟨b, bs⟩
  · simp only [List.isEmpty_nil, if_true, List.reverse_nil, List.dropWhile]
    cases ha : isWs a <;> simp
  · simp only [List.isEmpty_cons, if_false, List.reverse_append]
    simp

theorem lstripWs_cons_of_ws (c : Char) (x : Str) (h : isWs c = true) :
    lstripWs (c :: x) = lstripWs x := by
  simp [lstripWs, List.dropWhile, h]

theorem lstripWs_cons_of_not_ws (c : Char) (x : Str) (h : isWs c = false) :
    lstripWs (c :: x) = c :: x := by
  simp [lstripWs, List.dropWhile, h]

theorem stripWs_spc_cons (x : Str) : stripWs (spc :: x) = stripWs x := by
  unfold stripWs
  rw [lstripWs_cons_of_ws spc x isWs_spc]

theorem stripWs_cons_of_not_ws (c : Char) (x : Str) (h : isWs c = false) :
    stripWs (c :: x) = c :: rstripWs x := by
  unfold stripWs
  rw [lstripWs_cons_of_not_ws c x h, rstripWs_cons]
  rcases hx : rstripWs x with _ | _ <;> simp [h]

theorem wordsOf_cons_of_ws (c : Char) (cs : Str) (h : isWs c = true) :
    wordsOf (c :: cs) = wordsOf cs := by
  simp [wordsOf, h]

theorem wordsOf_ne_nil (d : Char) (l : Str) (hd : isWs d = false) :
    wordsOf (d :: l) ≠ [] := by
  simp only [wordsOf, hd, Bool.false_eq_true, if_false]
  rcases l with _ | ⟨e, l'⟩
  · simp
  · cases he : isWs e
    · rcases hw : wordsOf (e :: l') with _ | _ <;> simp [he]
    · simp [he]

theorem wordsOf_forall_ne_nil (t : Str) : ∀ w ∈ wordsOf t, w ≠ [] := by
  induction t with
  | nil => simp [wordsOf]
  | cons c cs ih =>
    cases hc : isWs c
    · simp only [wordsOf, hc, Bool.false_eq_true, if_false]
      rcases cs with _ | ⟨d, cs'⟩
      · simp
      · cases hd : isWs d
        · simp only [hd, Bool.false_eq_true, if_false]
          rcases hw : wordsOf (d :: cs') with _ | ⟨w, ws⟩
          · simp
          · intro x hx
            rcases List.mem_cons.mp hx with hx | hx
            · subst hx; simp
            · exact ih x (by rw [hw]; exact List.mem_cons_of_mem _ hx)
        · simp only [hd, if_true]
          intro x hx
          rcases List.mem_cons.mp hx with hx | hx
          · subst hx; simp
          · exact ih x hx
    · rw [wordsOf_cons_of_ws c cs hc]
      exact ih

theorem intercalateSp_cons_head (c : Char) (w : Str) (ws : List Str) :
    intercalateSp ((c :: w) :: ws) = c :: intercalateSp (w :: ws) := by
  rcases ws with _ | _ <;> simp [intercalateSp]

theorem intercalateSp_ne_nil (l : List Str) (h : l ≠ []) (hw : ∀ w ∈ l, w ≠ []) :
    intercalateSp l ≠ [] := by
  rcases l with _ | ⟨w, ws⟩
  · exact absurd rfl h
  · rcases ws with _ | _
    · simp only [intercalateSp]
      exact hw w (by simp)
    · simp [intercalateSp]

theorem intercalateSp_append (l1 l2 : List Str) (h1 : l1 ≠ []) (h2 : l2 ≠ []) :
    intercalateSp (l1 ++ l2) = intercalateSp l1 ++ spc :: intercalateSp l2 := by
  induction l1 with
  | nil => exact absurd rfl h1
  | cons w ws ih =>
    rcases ws with _ | ⟨w2, ws'⟩
    · rcases l2 with _ | _
      · exact absurd rfl h2
      · simp [intercalateSp]
    · have hthis := ih (by simp)
      rw [List.cons_append] at hthis
      simp only [List.cons_append, intercalateSp, List.append_eq]
      rw [hthis]
      simp

/-- Head-whitespace test (proof-side only). -/
def headIsWs : Str → Bool
  | [] => false
  | c :: _ => isWs c

/-- Unfolding `wordsOf` when the first two characters are word characters. -/
theorem wordsOf_cons_of_cons (c d : Char) (cs' : Str) (hc : isWs c = false)
    (hd : isWs d = false) (w : Str) (ws : List Str)
    (hw : wordsOf (d :: cs') = w :: ws) :
    wordsOf (c :: d :: cs') = (c :: w) :: ws := by
  conv_lhs => rw [wordsOf]
  simp only [hc, Bool.false_eq_true, if_false, hd, hw]

/-- Unfolding `wordsOf` when a word character is followed by whitespace. -/
theorem wordsOf_cons_of_ws_next (c d : Char) (cs' : Str) (hc : isWs c = false)
    (hd : isWs d = true) :
    wordsOf (c :: d :: cs') = [c] :: wordsOf (d :: cs') := by
  conv_lhs => rw [wordsOf]
  simp only [hc, Bool.false_eq_true, if_false, hd, if_true]

/-- Closed form of `rstripWs ∘ collapseWs`: the words joined by single
spaces, with one surviving leading space when the input began with
whitespace and has at least one word. -/
theorem rstrip_collapse (t : Str) :
    rstripWs (collapseWs t) =
      if headIsWs t && !(wordsOf t).isEmpty then spc :: intercalateSp (wordsOf t)
      else intercalateSp (wordsOf t) := by
  induction t with
  | nil => simp [collapseWs, rstripWs, wordsOf, headIsWs, intercalateSp]
  | cons c cs ih =>
    cases hc : isWs c
    · -- the head is not whitespace: it survives collapsing and stripping
      have hcol : collapseWs (c :: cs) = c :: collapseWs cs := by
        simp [collapseWs, hc]
      rw [hcol, rstripWs_cons]
      simp only [headIsWs, hc, Bool.false_and, Bool.false_eq_true, if_false]
      rcases cs with _ | ⟨d, cs'⟩
      · simp [collapseWs, rstripWs, wordsOf, intercalateSp, hc]
      · cases hd : isWs d
        · -- next char is a word char too
          simp only [headIsWs, hd, Bool.false_and, Bool.false_eq_true, if_false] at ih
          obtain ⟨w, ws, hw⟩ := List.exists_cons_of_ne_nil (wordsOf_ne_nil d cs' hd)
          have hne : rstripWs (collapseWs (d :: cs')) ≠ [] := by
            rw [ih, hw]
            exact intercalateSp_ne_nil _ (by simp)
              (by rw [← hw]; exact wordsOf_forall_ne_nil _)
          rw [if_neg hne, ih, wordsOf_cons_of_cons c d cs' hc hd w ws hw, hw,
            intercalateSp_cons_head]
        · -- next char is whitespace: current word is just [c]
          simp only [headIsWs, hd, Bool.true_and] at ih
          rw [wordsOf_cons_of_ws_next c d cs' hc hd]
          by_cases hwe : wordsOf (d :: cs') = []
          · rw [hwe] at ih ⊢
            simp only [List.isEmpty_nil, Bool.not_true, Bool.and_false,
              Bool.false_eq_true, if_false, intercalateSp] at ih
            simp [ih, hc, intercalateSp]
          · obtain ⟨w, ws, hw⟩ := List.exists_cons_of_ne_nil hwe
            rw [hw] at ih ⊢
            simp only [List.isEmpty_cons, Bool.not_false, Bool.and_true, if_true] at ih
            rw [if_neg (by rw [ih]; simp), ih]
            simp [intercalateSp]
    · -- the head is whitespace
      have hh : headIsWs (c :: cs) = true := by simp [headIsWs, hc]
      have hwords : wordsOf (c :: cs) = wordsOf cs := wordsOf_cons_of_ws c cs hc
      rcases cs with _ | ⟨d, cs'⟩
      · simp [collapseWs, hc, rstripWs, wordsOf, intercalateSp, isWs_spc,
          List.dropWhile]
      · cases hd : isWs d
        · -- whitespace then a word: a single space survives on the left
          have hcol : collapseWs (c :: d :: cs') = spc :: collapseWs (d :: cs') := by
            simp [collapseWs, hc, hd]
          simp only [headIsWs, hd, Bool.false_and, Bool.false_eq_true, if_false] at ih
          obtain ⟨w, ws, hw⟩ := List.exists_cons_of_ne_nil (wordsOf_ne_nil d cs' hd)
          have hne : rstripWs (collapseWs (d :: cs')) ≠ [] := by
            rw [ih, hw]
            exact intercalateSp_ne_nil _ (by simp)
              (by rw [← hw]; exact wordsOf_forall_ne_nil _)
          rw [hcol, rstripWs_cons, if_neg hne, ih, hh, hwords, hw]
          simp
        · -- two whitespace characters in a row: collapse drops the first
          have hcol : collapseWs (c :: d :: cs') = collapseWs (d :: cs') := by
            simp [collapseWs, hc, hd]
          have hh2 : headIsWs (d :: cs') = true := by simp [headIsWs, hd]
          rw [hcol, ih, hh2, hh, hwords]

/-- `stripWs ∘ collapseWs` is exactly "join the words with single spaces". -/
theorem strip_collapse (t : Str) :
    stripWs (collapseWs t) = intercalateSp (wordsOf t) := by
  induction t with
  | nil => simp [collapseWs, stripWs, lstripWs, rstripWs, wordsOf, intercalateSp]
  | cons c cs ih =>
    cases hc : isWs c
    · -- non-whitespace head: lstrip is the identity, use `rstrip_collapse`
      have hcol : collapseWs (c :: cs) = c :: collapseWs cs := by
        simp [collapseWs, hc]
      have hlift : stripWs (collapseWs (c :: cs)) = rstripWs (collapseWs (c :: cs)) := by
        rw [hcol]
        unfold stripWs
        rw [lstripWs_cons_of_not_ws c _ hc]
      rw [hlift, rstrip_collapse]
      simp [headIsWs, hc]
    · -- whitespace head: it is stripped away
      have hwords : wordsOf (c :: cs) = wordsOf cs := wordsOf_cons_of_ws c cs hc
      rcases cs with _ | ⟨d, cs'⟩
      · simp [collapseWs, hc, stripWs, lstripWs, rstripWs, wordsOf, intercalateSp,
          isWs_spc, List.dropWhile]
      · cases hd : isWs d
        · have hcol : collapseWs (c :: d :: cs') = spc :: collapseWs (d :: cs') := by
            simp [collapseWs, hc, hd]
          rw [hcol, stripWs_spc_cons, ih, hwords]
        · have hcol : collapseWs (c :: d :: cs') = collapseWs (d :: cs') := by
            simp [collapseWs, hc, hd]
          rw [hcol, ih, hwords]

/-- Splitting on an explicit separator space splits the word list. -/
theorem wordsOf_append_spc (x y : Str) :
    wordsOf (x ++ spc :: y) = wordsOf x ++ wordsOf y := by
  induction x with
  | nil =>
    rw [List.nil_append, wordsOf_cons_of_ws spc y isWs_spc]
    simp [wordsOf]
  | cons c cs ih =>
    cases hc : isWs c
    · rcases cs with _ | ⟨d, cs'⟩
      · rw [List.cons_append, List.nil_append,
          wordsOf_cons_of_ws_next c spc y hc isWs_spc,
          wordsOf_cons_of_ws spc y isWs_spc]
        simp [wordsOf, hc]
      · cases hd : isWs d
        · obtain ⟨w, ws, hw⟩ := List.exists_cons_of_ne_nil
            (wordsOf_ne_nil d (cs' ++ spc :: y) hd)
          have hw2 : wordsOf ((d :: cs') ++ spc :: y) = wordsOf (d :: cs') ++ wordsOf y := ih
          rw [List.cons_append] at hw2
          obtain ⟨w0, ws0, hw0⟩ := List.exists_cons_of_ne_nil (wordsOf_ne_nil d cs' hd)
          rw [List.cons_append, List.cons_append,
            wordsOf_cons_of_cons c d (cs' ++ spc :: y) hc hd w ws hw,
            wordsOf_cons_of_cons c d cs' hc hd w0 ws0 hw0]
          rw [hw, hw0] at hw2
          injection hw2 with h1 h2
          subst h1
          rw [h2]
          simp
        · rw [List.cons_append, List.cons_append,
            wordsOf_cons_of_ws_next c d (cs' ++ spc :: y) hc hd,
            wordsOf_cons_of_ws_next c d cs' hc hd]
          have := ih
          rw [List.cons_append] at this
          rw [this]
          simp
    · rw [List.cons_append, wordsOf_cons_of_ws c _ hc, wordsOf_cons_of_ws c cs hc, ih]

/-- Appending `" " ++ u` to a transcript extends its cleaned collapse-strip
normal form on the right: the old normal form is a prefix of the new one. -/
theorem strip_collapse_extends (x y : Str) :
    stripWs (collapseWs x) <+: stripWs (collapseWs (x ++ spc :: y)) := by
  rw [strip_collapse, strip_collapse, wordsOf_append_spc]
  rcases hwx : wordsOf x with _ | ⟨w, ws⟩
  · simp [intercalateSp]
  · rcases hwy : wordsOf y with _ | ⟨w2, ws2⟩
    · simp
    · rw [intercalateSp_append (w :: ws) (w2 :: ws2) (by simp) (by simp)]
      exact List.prefix_append _ _

/-! ### C9 — support: literal replacement distributes over the separator -/

/-- A positive `skip` just drops characters. -/
theorem raGo_skip_drop (p r : Str) : ∀ (l : Str) (s : ℕ),
    raGo p r s l = raGo p r 0 (l.drop s) := by
  intro l
  induction l with
  | nil => intro s; cases s <;> rfl
  | cons c cs ih =>
    intro s
    cases s with
    | zero => rfl
    | succ s => simpa [raGo] using ih s

theorem raGo_zero_cons_pos (p r : Str) (c : Char) (cs : Str)
    (h : p.isPrefixOf (c :: cs) = true) :
    raGo p r 0 (c :: cs) = r ++ raGo p r (p.length - 1) cs := by
  simp [raGo, h]

theorem raGo_zero_cons_neg (p r : Str) (c : Char) (cs : Str)
    (h : p.isPrefixOf (c :: cs) = false) :
    raGo p r 0 (c :: cs) = c :: raGo p r 0 cs := by
  simp [raGo, h]

/-- A space-free pattern that is a prefix of `a ++ spc :: b` already fits
inside `a`. -/
theorem prefix_of_append_spc (p a b : Str) (hsp : spc ∉ p)
    (hpre : p <+: a ++ spc :: b) : p <+: a := by
  by_cases hl : p.length ≤ a.length
  · have hp := List.prefix_iff_eq_take.mp hpre
    rw [List.take_append_of_le_length hl] at hp
    rw [hp]
    exact List.take_prefix _ _
  · exfalso
    push_neg at hl
    have h1 : p[a.length]? = some spc := by
      have hp := List.prefix_iff_eq_take.mp hpre
      rw [hp, List.getElem?_take, if_pos hl,
        List.getElem?_append_right (le_refl a.length)]
      simp
    exact hsp (List.getElem?_mem h1)

/-- Space-free nonempty literal replacement distributes over a separator
space. -/
theorem raGo_append_spc (p r : Str) (hsp : spc ∉ p) (hne : p ≠ []) :
    ∀ (x y : Str), raGo p r 0 (x ++ spc :: y) = raGo p r 0 x ++ spc :: raGo p r 0 y := by
  have hbase : ∀ y : Str, raGo p r 0 (spc :: y) = spc :: raGo p r 0 y := by
    intro y
    have hnp : p.isPrefixOf (spc :: y) = false := by
      cases hp : p.isPrefixOf (spc :: y)
      · rfl
      · exfalso
        rcases p with _ | ⟨q, qs⟩
        · exact hne rfl
        · have := List.isPrefixOf_iff_prefix.mp hp
          rw [List.cons_prefix_cons] at this
          exact hsp (this.1 ▸ List.mem_cons_self _ _)
    exact raGo_zero_cons_neg p r spc y hnp
  have H : ∀ (n : ℕ) (x : Str), x.length ≤ n → ∀ y : Str,
      raGo p r 0 (x ++ spc :: y) = raGo p r 0 x ++ spc :: raGo p r 0 y := by
    intro n
    induction n with
    | zero =>
      intro x hx y
      have : x = [] := List.length_eq_zero.mp (Nat.le_zero.mp hx)
      subst this
      simpa using hbase y
    | succ n ihn =>
      intro x hx y
      rcases x with _ | ⟨c, cs⟩
      · simpa using hbase y
      · rw [List.cons_append]
        by_cases hp : p.isPrefixOf (c :: cs) = true
        · have hpfx : p <+: c :: cs := List.isPrefixOf_iff_prefix.mp hp
          have hp2 : p.isPrefixOf (c :: (cs ++ spc :: y)) = true := by
            rw [List.isPrefixOf_iff_prefix]
            have := hpfx.trans (List.prefix_append (c :: cs) (spc :: y))
            rwa [List.cons_append] at this
          have hlen : p.length - 1 ≤ cs.length := by
            have := hpfx.length_le
            simp at this
            omega
          rw [raGo_zero_cons_pos p r c _ hp2, raGo_zero_cons_pos p r c cs hp,
            raGo_skip_drop p r (cs ++ spc :: y) (p.length - 1),
            raGo_skip_drop p r cs (p.length - 1),
            List.drop_append_of_le_length hlen]
          rw [ihn (cs.drop (p.length - 1))
            (le_trans (by simpa using Nat.sub_le cs.length (p.length - 1))
              (Nat.le_of_succ_le_succ hx)) y]
          simp
        · have hp0 : p.isPrefixOf (c :: cs) = false := by
            cases hpv : p.isPrefixOf (c :: cs)
            · rfl
            · exact absurd hpv (by simp [hp])
          have hp2 : p.isPrefixOf (c :: (cs ++ spc :: y)) = false := by
            cases hpv : p.isPrefixOf (c :: (cs ++ spc :: y))
            · rfl
            · exfalso
              apply hp
              have hpfx := List.isPrefixOf_iff_prefix.mp hpv
              rw [show c :: (cs ++ spc :: y) = (c :: cs) ++ spc :: y by simp] at hpfx
              exact List.isPrefixOf_iff_prefix.mpr (prefix_of_append_spc p _ y hsp hpfx)
          rw [raGo_zero_cons_neg p r c _ hp2, raGo_zero_cons_neg p r c cs hp0,
            ihn cs (Nat.le_of_succ_le_succ hx) y]
          simp
  intro x y
  exact H x.length x le_rfl y

/-- `replaceAll` form of the distribution lemma. -/
theorem replaceAll_append_spc (p r : Str) (hsp : spc ∉ p) (hne : p ≠ []) (x y : Str) :
    replaceAll p r (x ++ spc :: y) = replaceAll p r x ++ spc :: replaceAll p r y :=
  raGo_append_spc p r hsp hne x y

/-- The whole contraction-expansion block distributes over a separator
space (every pattern is space-free and nonempty). -/
theorem expandContractions_append_spc (x y : Str) :
    expandContractions (x ++ spc :: y) =
      expandContractions x ++ spc :: expandContractions y := by
  simp only [expandContractions]
  rw [replaceAll_append_spc _ _ (by decide) (by decide) x y]
  rw [replaceAll_append_spc _ _ (by decide) (by decide)]
  rw [replaceAll_append_spc _ _ (by decide) (by decide)]
  rw [replaceAll_append_spc _ _ (by decide) (by decide)]
  rw [replaceAll_append_spc _ _ (by decide) (by decide)]
  rw [replaceAll_append_spc _ _ (by decide) (by decide)]
  rw [replaceAll_append_spc _ _ (by decide) (by decide)]

/-- `clean_text t` is a prefix of `clean_text (t ++ " " ++ u)`. -/
theorem clean_text_extends (t u : Str) :
    clean_text t <+: clean_text (t ++ spc :: u) := by
  have hlow : pyLower (t ++ spc :: u) = pyLower t ++ spc :: pyLower u := by
    simp [pyLower, toLowerAscii_spc]
  unfold clean_text
  rw [hlow, strip_collapse, strip_collapse, wordsOf_append_spc]
  rcases hwx : wordsOf (pyLower t) with _ | ⟨w, ws⟩
  · have hnil : expandContractions (intercalateSp []) = [] := by decide
    rw [hnil]
    exact List.nil_prefix
  · rcases hwy : wordsOf (pyLower u) with _ | ⟨w2, ws2⟩
    · rw [List.append_nil]
    · rw [intercalateSp_append (w :: ws) (w2 :: ws2) (by simp) (by simp),
        expandContractions_append_spc]
      exact List.prefix_append _ _

/-- `containsSub` is the infix relation. -/
theorem containsSub_iff_infix (t p : Str) : containsSub t p = true ↔ p <:+: t := by
  induction t with
  | nil =>
    simp [containsSub, List.isPrefixOf_iff_prefix]
  | cons c cs ih =>
    rw [containsSub]
    simp [Bool.or_eq_true, List.isPrefixOf_iff_prefix, ih, List.infix_cons_iff]

/-- Presence of any phrase in the cleaned transcript survives appending
`" " ++ u` to the raw transcript. -/
theorem presence_mono (kw t u : Str)
    (h : is_keyword_present (clean_text t) kw = true) :
    is_keyword_present (clean_text (t ++ spc :: u)) kw = true := by
  rw [presence_eq_containsSub, containsSub_iff_infix] at h ⊢
  exact h.trans (clean_text_extends t u).isInfix

/-- Looking up a group in a per-group-built match map finds the value built
from the first group with that name. -/
theorem lookupGroup_map (F : String × List String → List String)
    (gs : List (String × List String)) (name : String) :
    lookupGroup (gs.map (fun g => (g.1, F g))) name =
      match gs.find? (fun g => g.1 == name) with
      | some g0 => F g0
      | none => [] := by
  induction gs with
  | nil => rfl
  | cons g gs ih =>
    unfold lookupGroup at ih ⊢
    simp only [List.map_cons, List.find?]
    cases hg : (g.1 == name)
    · simpa only [hg] using ih
    · simp only [hg]

/-- A pointwise-stronger filter keeps non-emptiness. -/
theorem filter_ne_nil_mono {α : Type} {p q : α → Bool} (l : List α)
    (hpq : ∀ x ∈ l, p x = true → q x = true) (h : l.filter p ≠ []) :
    l.filter q ≠ [] := by
  obtain ⟨x, hx⟩ := List.exists_mem_of_ne_nil _ h
  rw [List.mem_filter] at hx
  exact List.ne_nil_of_mem (List.mem_filter.mpr ⟨hx.1, hpq x hx.1 hx.2⟩)

/-- The conditional-append fold is nonempty exactly when the accumulator is
or some selected element contributes. -/
theorem foldl_append_ne_nil_iff {α β : Type} (cond : α → Bool) (f : α → List β)
    (l : List α) : ∀ acc : List β,
    (l.foldl (fun acc x => if cond x then acc ++ f x else acc) acc ≠ []) ↔
      (acc ≠ [] ∨ ∃ x ∈ l, cond x = true ∧ f x ≠ []) := by
  induction l with
  | nil => intro acc; simp
  | cons x xs ih =>
    intro acc
    by_cases hx : cond x = true
    · rw [List.foldl_cons]
      simp only [hx, if_true]
      rw [ih]
      simp only [ne_eq, List.append_eq_nil, not_and_or, List.mem_cons]
      constructor
      · rintro (h | ⟨z, hz, hcz, hfz⟩)
        · rcases h with h | h
          · exact Or.inl h
          · exact Or.inr ⟨x, Or.inl rfl, hx, h⟩
        · exact Or.inr ⟨z, Or.inr hz, hcz, hfz⟩
      · rintro (h | ⟨z, hz, hcz, hfz⟩)
        · exact Or.inl (Or.inl h)
        · rcases hz with hz | hz
          · subst hz; exact Or.inl (Or.inr hfz)
          · exact Or.inr ⟨z, hz, hcz, hfz⟩
    · rw [List.foldl_cons]
      simp only [hx, if_false]
      rw [ih]
      constructor
      · rintro (h | ⟨z, hz, hcz, hfz⟩)
        · exact Or.inl h
        · exact Or.inr ⟨z, List.mem_cons_of_mem _ hz, hcz, hfz⟩
      · rintro (h | ⟨z, hz, hcz, hfz⟩)
        · exact Or.inl h
        · rcases List.mem_cons.mp hz with hz | hz
          · subst hz; exact absurd hcz hx
          · exact Or.inr ⟨z, hz, hcz, hfz⟩

/-- Non-emptiness of a group's exact-match list survives appending
`" " ++ u` to the transcript. -/
theorem exact_lookup_mono (t u : Str) (gs : List (String × List String))
    (name : String)
    (h : lookupGroup (find_exact_matches (clean_text t) gs) name ≠ []) :
    lookupGroup (find_exact_matches (clean_text (t ++ spc :: u)) gs) name ≠ [] := by
  unfold find_exact_matches at h ⊢
  rw [lookupGroup_map] at h ⊢
  rcases hf : gs.find? (fun g => g.1 == name) with _ | g0
  · rw [hf] at h
    exact absurd rfl h
  · rw [hf] at h ⊢
    exact filter_ne_nil_mono g0.2
      (fun x _ hx => presence_mono x.data t u hx) h

/-- Non-emptiness of a group's semantic-match list survives appending
`" " ++ u` to the transcript (the family-selection condition does not
depend on the transcript). -/
theorem semantic_lookup_mono (semantic_groups : List (String × List String))
    (t u : Str) (gs : List (String × List String)) (name : String)
    (h : lookupGroup (find_semantic_matches semantic_groups (clean_text t) gs) name ≠ []) :
    lookupGroup (find_semantic_matches semantic_groups (clean_text (t ++ spc :: u)) gs)
      name ≠ [] := by
  unfold find_semantic_matches at h ⊢
  rw [lookupGroup_map] at h ⊢
  rcases hf : gs.find? (fun g => g.1 == name) with _ | g0
  · rw [hf] at h
    exact absurd rfl h
  · rw [hf] at h ⊢
    rw [foldl_append_ne_nil_iff] at h ⊢
    rcases h with h | ⟨fam, hfam, hcond, hne⟩
    · exact absurd rfl h
    · refine Or.inr ⟨fam, hfam, hcond, ?_⟩
      rw [ne_eq, List.map_eq_nil_iff] at hne ⊢
      exact filter_ne_nil_mono fam.2
        (fun x _ hx => presence_mono x.data t u hx) hne

/-- C9: appending one more occurrence of an essential keyword of a rubric
group to the transcript (with a separating space) never decreases that
group's contribution to the essential category score: existing exact and
semantic hits persist because the cleaned extended transcript extends the
cleaned original. -/
theorem C9_essential_monotone (semantic_groups : List (String × List String))
    (qi : ℤ) (e : Rubric) (h : question_criteria qi = some e)
    (g : String × List String) (hg : g ∈ e.essential_keywords)
    (kw : String) (hkw : kw ∈ g.2) (t : Str) :
    groupContribution (find_exact_matches (clean_text t) e.essential_keywords)
        (find_semantic_matches semantic_groups (clean_text t) e.essential_keywords)
        g.1 ≤
      groupContribution
        (find_exact_matches (clean_text (t ++ spc :: kw.data)) e.essential_keywords)
        (find_semantic_matches semantic_groups (clean_text (t ++ spc :: kw.data))
          e.essential_keywords)
        g.1 := by
  rw [groupContribution_eq, groupContribution_eq]
  split_ifs with h1 h2 h3 h4 h5 h6 <;> try norm_num
  · exact absurd (exact_lookup_mono t kw.data e.essential_keywords g.1 h1) h2
  · exact absurd (exact_lookup_mono t kw.data e.essential_keywords g.1 h1) h2
  · exact absurd (semantic_lookup_mono semantic_groups t kw.data
      e.essential_keywords g.1 h4) h6

/-- C9 witness: question 0, essential group "experience", keyword "python",
transcript "hello". -/
theorem C9_witness :
    question_criteria 0 = some criteria0 ∧
    ("experience", ["python", "programming", "experience", "years", "worked"]) ∈
      criteria0.essential_keywords ∧
    "python" ∈ ["python", "programming", "experience", "years", "worked"] ∧
    groupContribution
        (find_exact_matches (clean_text (("hello").data)) criteria0.essential_keywords)
        (find_semantic_matches default_semantic_groups (clean_text (("hello").data))
          criteria0.essential_keywords)
        ("experience", ["python", "programming", "experience", "years", "worked"]).1 ≤
      groupContribution
        (find_exact_matches (clean_text ((("hello").data) ++ spc :: ("python").data))
          criteria0.essential_keywords)
        (find_semantic_matches default_semantic_groups
          (clean_text ((("hello").data) ++ spc :: ("python").data))
          criteria0.essential_keywords)
        ("experience", ["python", "programming", "experience", "years", "worked"]).1 :=
  ⟨rfl, by decide, by decide,
   C9_essential_monotone default_semantic_groups 0 criteria0 rfl
     ("experience", ["python", "programming", "experience", "years", "worked"])
     (by decide) ("python") (by decide) (("hello").data)⟩

/-! ### C6/C10 — session evaluation -/

/-- The evaluation `evaluate_full_interview` runs on one question record. -/
def recordEval (semantic_groups synonyms : List (String × List String))
    (pm : PatternMatcher) (qd : QuestionData) : Except String SingleAnswerEval :=
  evaluate_single_answer semantic_groups synonyms pm (qd.question_number - 1)
    qd.question_text qd.transcript

/-- On a known question index the per-record evaluation cannot fail. -/
theorem recordEval_ok (semantic_groups synonyms : List (String × List String))
    (pm : PatternMatcher) (qd : QuestionData)
    (h : (question_criteria (qd.question_number - 1)).isSome = true) :
    ∃ ev, recordEval semantic_groups synonyms pm qd = .ok ev := by
  unfold recordEval evaluate_single_answer evaluate_keywords_advanced
  rcases hc : question_criteria (qd.question_number - 1) with _ | e
  · rw [hc] at h
    simp at h
  · simp only [hc]
    exact ⟨_, rfl⟩

/-- The score a retained record contributes. -/
def recordScore (semantic_groups synonyms : List (String × List String))
    (pm : PatternMatcher) (qd : QuestionData) : Option ℚ :=
  match recordEval semantic_groups synonyms pm qd with
  | .ok ev => some ev.combined_score
  | .error _ => none

/-- Full behaviour of the `evaluate_full_interview` loop on valid shared
references: it succeeds, touches exactly the retained records (attaching
their evaluation in place), leaves everything else alone, and collects the
retained records' scores in order. -/
theorem evalLoop_spec (semantic_groups synonyms : List (String × List String))
    (pm : PatternMatcher) :
    ∀ (addrs : List ℕ) (h : Heap),
    addrs.Nodup →
    (∀ a ∈ addrs, ∃ qd, h[a]? = some qd) →
    (∀ a ∈ addrs, ∀ qd, h[a]? = some qd → stripWs qd.transcript ≠ [] →
      (question_criteria (qd.question_number - 1)).isSome = true) →
    ∃ h2 scores, evalLoop semantic_groups synonyms pm h addrs = .ok (h2, scores) ∧
      h2.length = h.length ∧
      (∀ b, b ∉ addrs → h2[b]? = h[b]?) ∧
      (∀ a ∈ addrs, ∀ qd, h[a]? = some qd →
        (stripWs qd.transcript = [] → h2[a]? = some qd) ∧
        (stripWs qd.transcript ≠ [] → ∃ ev,
          recordEval semantic_groups synonyms pm qd = .ok ev ∧
          h2[a]? = some { qd with answer_evaluation := some ev })) ∧
      scores = ((addrs.filterMap (fun a => h[a]?)).filter
          (fun qd => !(stripWs qd.transcript).isEmpty)).filterMap
          (recordScore semantic_groups synonyms pm) := by
  intro addrs
  induction addrs with
  | nil =>
    intro h _ _ _
    exact ⟨h, [], rfl, rfl, fun b _ => rfl, by simp, by simp⟩
  | cons a rest ih =>
    intro h hnd hvalid hknown
    obtain ⟨qd, hqd⟩ := hvalid a (List.mem_cons_self a rest)
    have hna : a ∉ rest := (List.nodup_cons.mp hnd).1
    have hnd' : rest.Nodup := (List.nodup_cons.mp hnd).2
    by_cases hskip : stripWs qd.transcript = []
    · obtain ⟨h2, scores, hloop, hlen, hout, hin, hscores⟩ :=
        ih h hnd' (fun b hb => hvalid b (List.mem_cons_of_mem a hb))
          (fun b hb => hknown b (List.mem_cons_of_mem a hb))
      refine ⟨h2, scores, ?_, hlen, ?_, ?_, ?_⟩
      · simp only [evalLoop, hqd, hskip, if_pos]
        exact hloop
      · intro b hb
        exact hout b (fun hmem => hb (List.mem_cons_of_mem a hmem))
      · intro x hx qd0 hqd0
        rcases List.mem_cons.mp hx with hx | hx
        · subst hx
          have heq : qd0 = qd := by
            rw [hqd0] at hqd
            exact Option.some.inj hqd
          subst heq
          constructor
          · intro _
            rw [hout x hna, hqd0]
          · intro hne
            exact absurd hskip hne
        · exact hin x hx qd0 hqd0
      · rw [hscores]
        have : (a :: rest).filterMap (fun a => h[a]?) =
            qd :: rest.filterMap (fun a => h[a]?) := by
          simp [List.filterMap_cons, hqd]
        rw [this, List.filter_cons]
        simp [hskip]
    · have hks := hknown a (List.mem_cons_self a rest) qd hqd hskip
      obtain ⟨ev, hev⟩ := recordEval_ok semantic_groups synonyms pm qd hks
      have halt : a < h.length := (List.getElem?_eq_some.mp hqd).1
      have hrest_eq : ∀ b ∈ rest, (h.set a { qd with answer_evaluation := some ev })[b]? = h[b]? := by
        intro b hb
        exact List.getElem?_set_ne (fun heq => hna (by rw [heq]; exact hb))
      obtain ⟨h2, scores, hloop, hlen, hout, hin, hscores⟩ :=
        ih (h.set a { qd with answer_evaluation := some ev }) hnd'
          (fun b hb => by
            rw [hrest_eq b hb]
            exact hvalid b (List.mem_cons_of_mem a hb))
          (fun b hb => by
            rw [hrest_eq b hb]
            exact hknown b (List.mem_cons_of_mem a hb))
      refine ⟨h2, ev.combined_score :: scores, ?_, ?_, ?_, ?_, ?_⟩
      · have hev' : evaluate_single_answer semantic_groups synonyms pm
            (qd.question_number - 1) qd.question_text qd.transcript = .ok ev := hev
        simp only [evalLoop, hqd]
        rw [if_neg hskip, hev']
        dsimp only
        rw [hloop]
      · rw [hlen, List.length_set]
      · intro b hb
        rw [hout b (fun hmem => hb (List.mem_cons_of_mem a hmem))]
        exact List.getElem?_set_ne (fun heq => hb (by rw [← heq]; exact List.mem_cons_self a rest))
      · intro x hx qd0 hqd0
        rcases List.mem_cons.mp hx with hx | hx
        · subst hx
          have heq : qd0 = qd := by
            rw [hqd0] at hqd
            exact Option.some.inj hqd
          subst heq
          constructor
          · intro hc
            exact absurd hc hskip
          · intro _
            refine ⟨ev, hev, ?_⟩
            rw [hout x hna]
            exact List.getElem?_set_self halt
        · have hqd0' : (h.set a { qd with answer_evaluation := some ev })[x]? = some qd0 := by
            rw [hrest_eq x hx]
            exact hqd0
          exact hin x hx qd0 hqd0'
      · rw [hscores]
        have h1 : (a :: rest).filterMap (fun a => h[a]?) =
            qd :: rest.filterMap (fun a => h[a]?) := by
          simp [List.filterMap_cons, hqd]
        have h2c : rest.filterMap
              (fun b => (h.set a { qd with answer_evaluation := some ev })[b]?) =
            rest.filterMap (fun b => h[b]?) :=
          List.filterMap_congr (fun b hb => hrest_eq b hb)
        rw [h2c, h1, List.filter_cons]
        have : (!(stripWs qd.transcript).isEmpty) = true := by
          simp [List.isEmpty_iff, hskip]
        rw [if_pos this]
        rw [List.filterMap_cons]
        have : recordScore semantic_groups synonyms pm qd = some ev.combined_score := by
          simp [recordScore, hev]
        rw [this]

/-- The records the session loop retains: those whose stripped transcript
is non-empty. -/
def retainedRecords (h : Heap) (s : SessionData) : List QuestionData :=
  (s.questions_data.filterMap (fun a => h[a]?)).filter
    (fun qd => !(stripWs qd.transcript).isEmpty)

/-- The scores of the retained records, in order. -/
def retainedScores (semantic_groups synonyms : List (String × List String))
    (pm : PatternMatcher) (h : Heap) (s : SessionData) : List ℚ :=
  (retainedRecords h s).filterMap (recordScore semantic_groups synonyms pm)

theorem summaryOpt_eq_none (scores : List ℚ) : summaryOpt scores = none ↔ scores = [] := by
  cases scores <;> simp [summaryOpt]

/-- `filterMap` with a never-failing function keeps the length. -/
theorem filterMap_length_of_all_some {α β : Type} (f : α → Option β) (l : List α)
    (h : ∀ x ∈ l, ∃ y, f x = some y) : (l.filterMap f).length = l.length := by
  induction l with
  | nil => rfl
  | cons x xs ih =>
    obtain ⟨y, hy⟩ := h x (List.mem_cons_self x xs)
    rw [List.filterMap_cons, hy]
    simp [ih (fun z hz => h z (List.mem_cons_of_mem _ hz))]

/-- Retained records evaluate without an exception when their indices are
known. -/
theorem retained_recordEval_ok (semantic_groups synonyms : List (String × List String))
    (pm : PatternMatcher) (h : Heap) (s : SessionData)
    (hknown : ∀ a ∈ s.questions_data, ∀ qd, h[a]? = some qd →
      stripWs qd.transcript ≠ [] → (question_criteria (qd.question_number - 1)).isSome = true) :
    ∀ qd ∈ retainedRecords h s, ∃ ev,
      recordEval semantic_groups synonyms pm qd = .ok ev := by
  intro qd hqd
  unfold retainedRecords at hqd
  rw [List.mem_filter] at hqd
  obtain ⟨hmem, hne⟩ := hqd
  obtain ⟨a, ha, hfa⟩ := List.mem_filterMap.mp hmem
  have hne' : stripWs qd.transcript ≠ [] := by
    simpa [List.isEmpty_iff] using hne
  exact recordEval_ok semantic_groups synonyms pm qd (hknown a ha qd hfa hne')

/-- C6: session evaluation evaluates exactly the items whose transcript is
non-empty after stripping, computes the summary over exactly those items'
scores, and with zero such items returns the session with no summary
attached (the explicit no-data outcome) — no division over an empty list
ever happens, and nothing is raised. -/
theorem C6_session_filtering (semantic_groups synonyms : List (String × List String))
    (pm : PatternMatcher) (h : Heap) (s : SessionData)
    (hnd : s.questions_data.Nodup)
    (hvalid : ∀ a ∈ s.questions_data, ∃ qd, h[a]? = some qd)
    (hknown : ∀ a ∈ s.questions_data, ∀ qd, h[a]? = some qd →
      stripWs qd.transcript ≠ [] → (question_criteria (qd.question_number - 1)).isSome = true)
    (hinit : ∀ a ∈ s.questions_data, ∀ qd, h[a]? = some qd →
      qd.answer_evaluation = none) :
    ∃ h2, evaluate_full_interview semantic_groups synonyms pm h s =
        .ok (h2, s, summaryOpt (retainedScores semantic_groups synonyms pm h s)) ∧
      (retainedScores semantic_groups synonyms pm h s).length =
        (retainedRecords h s).length ∧
      (∀ a ∈ s.questions_data, ∀ qd, h[a]? = some qd →
        ((∃ qd2, h2[a]? = some qd2 ∧ qd2.answer_evaluation.isSome = true) ↔
          stripWs qd.transcript ≠ [])) ∧
      (summaryOpt (retainedScores semantic_groups synonyms pm h s) = none ↔
        retainedRecords h s = []) ∧
      (∀ summ, summaryOpt (retainedScores semantic_groups synonyms pm h s) = some summ →
        summ.total_questions_evaluated = (retainedRecords h s).length) := by
  obtain ⟨h2, scores, hloop, _, hout, hin, hscores⟩ :=
    evalLoop_spec semantic_groups synonyms pm s.questions_data h hnd hvalid hknown
  have hsc : scores = retainedScores semantic_groups synonyms pm h s := hscores
  have hlen2 : (retainedScores semantic_groups synonyms pm h s).length =
      (retainedRecords h s).length := by
    unfold retainedScores
    refine filterMap_length_of_all_some _ _ ?_
    intro qd hqd
    obtain ⟨ev, hev⟩ :=
      retained_recordEval_ok semantic_groups synonyms pm h s hknown qd hqd
    exact ⟨ev.combined_score, by simp [recordScore, hev]⟩
  refine ⟨h2, ?_, hlen2, ?_, ?_, ?_⟩
  · unfold evaluate_full_interview
    rw [hloop]
    dsimp only
    rw [hsc]
  · intro a ha qd hqd
    constructor
    · rintro ⟨qd2, hqd2, hsome⟩
      by_cases hemp : stripWs qd.transcript = []
      · exfalso
        have hkeep := (hin a ha qd hqd).1 hemp
        rw [hkeep] at hqd2
        have heq := Option.some.inj hqd2
        subst heq
        rw [hinit a ha qd hqd] at hsome
        simp at hsome
      · exact hemp
    · intro hne
      obtain ⟨ev, _, hset⟩ := (hin a ha qd hqd).2 hne
      exact ⟨_, hset, by simp⟩
  · rw [summaryOpt_eq_none]
    constructor
    · intro hsn
      have hl := hlen2
      rw [hsn] at hl
      exact List.length_eq_zero.mp hl.symm
    · intro hret
      unfold retainedScores
      rw [hret]
      rfl
  · intro summ hsumm
    rcases hsc2 : retainedScores semantic_groups synonyms pm h s with _ | ⟨s0, rest⟩
    · rw [hsc2] at hsumm
      exact Option.noConfusion hsumm
    · rw [hsc2] at hsumm
      unfold summaryOpt at hsumm
      have heq := Option.some.inj hsumm
      subst heq
      show (s0 :: rest).length = (retainedRecords h s).length
      rw [← hsc2]
      exact hlen2

/-- C10: `evaluate_full_interview` makes only a shallow copy of the
session: the returned session carries the very same `questions_data`
reference list as the input (`.ok (h2, s, summ)` returns `s` itself), and
each retained question record is updated IN PLACE on the heap, so the
caller's original `session_data` sees the attached `answer_evaluation`
through its own references. -/
theorem C10_shallow_copy_mutation (semantic_groups synonyms : List (String × List String))
    (pm : PatternMatcher) (h : Heap) (s : SessionData)
    (hnd : s.questions_data.Nodup)
    (hvalid : ∀ a ∈ s.questions_data, ∃ qd, h[a]? = some qd)
    (hknown : ∀ a ∈ s.questions_data, ∀ qd, h[a]? = some qd →
      stripWs qd.transcript ≠ [] → (question_criteria (qd.question_number - 1)).isSome = true) :
    ∃ h2 summ, evaluate_full_interview semantic_groups synonyms pm h s = .ok (h2, s, summ) ∧
      (∀ a ∈ s.questions_data, ∀ qd, h[a]? = some qd → stripWs qd.transcript ≠ [] →
        ∃ ev, recordEval semantic_groups synonyms pm qd = .ok ev ∧
          h2[a]? = some { qd with answer_evaluation := some ev }) := by
  obtain ⟨h2, scores, hloop, _, _, hin, _⟩ :=
    evalLoop_spec semantic_groups synonyms pm s.questions_data h hnd hvalid hknown
  refine ⟨h2, summaryOpt scores, ?_, ?_⟩
  · unfold evaluate_full_interview
    rw [hloop]
  · intro a ha qd hqd hne
    exact (hin a ha qd hqd).2 hne

/-- A three-question session heap: one answered, one whitespace-only, one
answered. -/
def heap3 : Heap :=
  [⟨1, "Q1", ("python").data, none⟩,
   ⟨2, "Q2", (" ").data, none⟩,
   ⟨3, "Q3", ("list").data, none⟩]

/-- The session referencing the three records. -/
def sess3 : SessionData := ⟨[0, 1, 2]⟩

/-- C6 witness: of the 3 items one transcript is whitespace-only, so
exactly 2 items are retained and the summary is computed over their two
scores. -/
theorem C6_witness :
    (∃ h2, evaluate_full_interview default_semantic_groups default_synonyms noPatterns
        heap3 sess3 =
        .ok (h2, sess3, summaryOpt
          (retainedScores default_semantic_groups default_synonyms noPatterns heap3 sess3)) ∧
      (retainedScores default_semantic_groups default_synonyms noPatterns heap3 sess3).length =
        (retainedRecords heap3 sess3).length) ∧
    (retainedRecords heap3 sess3).length = 2 := by
  have hvalid : ∀ a ∈ sess3.questions_data, ∃ qd, heap3[a]? = some qd := by
    intro a ha
    fin_cases ha
    · exact ⟨_, rfl⟩
    · exact ⟨_, rfl⟩
    · exact ⟨_, rfl⟩
  have hknown : ∀ a ∈ sess3.questions_data, ∀ qd, heap3[a]? = some qd →
      stripWs qd.transcript ≠ [] →
      (question_criteria (qd.question_number - 1)).isSome = true := by
    intro a ha qd hqd hne
    fin_cases ha <;> (injection hqd with hq; subst hq; decide)
  have hinit : ∀ a ∈ sess3.questions_data, ∀ qd, heap3[a]? = some qd →
      qd.answer_evaluation = none := by
    intro a ha qd hqd
    fin_cases ha <;> (injection hqd with hq; subst hq; rfl)
  obtain ⟨h2, hrun, hlen, _⟩ :=
    C6_session_filtering default_semantic_groups default_synonyms noPatterns heap3 sess3
      (by decide) hvalid hknown hinit
  exact ⟨⟨h2, hrun, hlen⟩, by decide⟩

/-- A one-question session heap. -/
def heap1 : Heap := [⟨1, "Q1", ("python").data, none⟩]

/-- The session referencing the single record. -/
def sess1 : SessionData := ⟨[0]⟩

/-- C10 witness: the returned session shares `sess1`'s reference list, and
the record reachable from the caller's original reference carries the
attached evaluation after the call. -/
theorem C10_witness :
    ∃ h2 summ, evaluate_full_interview default_semantic_groups default_synonyms noPatterns
        heap1 sess1 = .ok (h2, sess1, summ) ∧
      (∀ a ∈ sess1.questions_data, ∀ qd, heap1[a]? = some qd →
        stripWs qd.transcript ≠ [] →
        ∃ ev, recordEval default_semantic_groups default_synonyms noPatterns qd = .ok ev ∧
          h2[a]? = some { qd with answer_evaluation := some ev }) := by
  have hvalid : ∀ a ∈ sess1.questions_data, ∃ qd, heap1[a]? = some qd := by
    intro a ha
    fin_cases ha
    exact ⟨_, rfl⟩
  have hknown : ∀ a ∈ sess1.questions_data, ∀ qd, heap1[a]? = some qd →
      stripWs qd.transcript ≠ [] →
      (question_criteria (qd.question_number - 1)).isSome = true := by
    intro a ha qd hqd hne
    fin_cases ha
    injection hqd with hq
    subst hq
    decide
  exact C10_shallow_copy_mutation default_semantic_groups default_synonyms noPatterns
    heap1 sess1 (by decide) hvalid hknown
